import Mathlib

/-!
Verification of the flight-simulator rigid-body core (`src/main.rs`).

The embedding models `f32` scalars as exact real numbers; the separate
`FPModel` namespace at the end models the IEEE-754 special values
(infinities and NaN) over exact rationals for the claims that are about
NaN propagation.  Fallible operations of the source (`unwrap`, slice
indexing) are modelled with `Option`.
-/

namespace FlightSim

noncomputable section

/-- A 3-component vector, mirroring `glam::Vec3`. -/
@[ext]
structure Vec3 where
  x : ℝ
  y : ℝ
  z : ℝ

instance : Zero Vec3 := ⟨⟨0, 0, 0⟩⟩

instance : Add Vec3 := ⟨fun a b => ⟨a.x + b.x, a.y + b.y, a.z + b.z⟩⟩

instance : Sub Vec3 := ⟨fun a b => ⟨a.x - b.x, a.y - b.y, a.z - b.z⟩⟩

instance : Neg Vec3 := ⟨fun a => ⟨-a.x, -a.y, -a.z⟩⟩

/-- Scalar multiplication `f32 * Vec3`. -/
instance : SMul ℝ Vec3 := ⟨fun c v => ⟨c * v.x, c * v.y, c * v.z⟩⟩

/-- The `Vec3 * f32` form used throughout the source. -/
instance : HMul Vec3 ℝ Vec3 := ⟨fun v c => ⟨v.x * c, v.y * c, v.z * c⟩⟩

/-- The `f32 * Vec3` form used throughout the source. -/
instance : HMul ℝ Vec3 Vec3 := ⟨fun c v => ⟨c * v.x, c * v.y, c * v.z⟩⟩

/-- The `Vec3 / f32` form used throughout the source. -/
instance : HDiv Vec3 ℝ Vec3 := ⟨fun v c => ⟨v.x / c, v.y / c, v.z / c⟩⟩

@[simp] theorem Vec3.zero_x : (0 : Vec3).x = 0 := rfl

@[simp] theorem Vec3.zero_y : (0 : Vec3).y = 0 := rfl

@[simp] theorem Vec3.zero_z : (0 : Vec3).z = 0 := rfl

@[simp] theorem Vec3.add_x (a b : Vec3) : (a + b).x = a.x + b.x := rfl

@[simp] theorem Vec3.add_y (a b : Vec3) : (a + b).y = a.y + b.y := rfl

@[simp] theorem Vec3.add_z (a b : Vec3) : (a + b).z = a.z + b.z := rfl

@[simp] theorem Vec3.sub_x (a b : Vec3) : (a - b).x = a.x - b.x := rfl

@[simp] theorem Vec3.sub_y (a b : Vec3) : (a - b).y = a.y - b.y := rfl

@[simp] theorem Vec3.sub_z (a b : Vec3) : (a - b).z = a.z - b.z := rfl

@[simp] theorem Vec3.neg_x (a : Vec3) : (-a).x = -a.x := rfl

@[simp] theorem Vec3.neg_y (a : Vec3) : (-a).y = -a.y := rfl

@[simp] theorem Vec3.neg_z (a : Vec3) : (-a).z = -a.z := rfl

@[simp] theorem Vec3.smul_x (c : ℝ) (v : Vec3) : (c • v).x = c * v.x := rfl

@[simp] theorem Vec3.smul_y (c : ℝ) (v : Vec3) : (c • v).y = c * v.y := rfl

@[simp] theorem Vec3.smul_z (c : ℝ) (v : Vec3) : (c • v).z = c * v.z := rfl

@[simp] theorem Vec3.mulR_x (v : Vec3) (c : ℝ) : (v * c).x = v.x * c := rfl

@[simp] theorem Vec3.mulR_y (v : Vec3) (c : ℝ) : (v * c).y = v.y * c := rfl

@[simp] theorem Vec3.mulR_z (v : Vec3) (c : ℝ) : (v * c).z = v.z * c := rfl

@[simp] theorem Vec3.mulL_x (c : ℝ) (v : Vec3) : (c * v).x = c * v.x := rfl

@[simp] theorem Vec3.mulL_y (c : ℝ) (v : Vec3) : (c * v).y = c * v.y := rfl

@[simp] theorem Vec3.mulL_z (c : ℝ) (v : Vec3) : (c * v).z = c * v.z := rfl

@[simp] theorem Vec3.div_x (v : Vec3) (c : ℝ) : (v / c).x = v.x / c := rfl

@[simp] theorem Vec3.div_y (v : Vec3) (c : ℝ) : (v / c).y = v.y / c := rfl

@[simp] theorem Vec3.div_z (v : Vec3) (c : ℝ) : (v / c).z = v.z / c := rfl

@[simp] theorem Vec3.mk_x (a b c : ℝ) : (Vec3.mk a b c).x = a := rfl

@[simp] theorem Vec3.mk_y (a b c : ℝ) : (Vec3.mk a b c).y = b := rfl

@[simp] theorem Vec3.mk_z (a b c : ℝ) : (Vec3.mk a b c).z = c := rfl

/-- Dot product, as in `glam::Vec3::dot`. -/
def Vec3.dot (a b : Vec3) : ℝ := a.x * b.x + a.y * b.y + a.z * b.z

/-- Cross product, as in `glam::Vec3::cross`. -/
def Vec3.cross (a b : Vec3) : Vec3 :=
  ⟨a.y * b.z - b.y * a.z, a.z * b.x - b.z * a.x, a.x * b.y - b.x * a.y⟩

/-- Squared length, as in `glam::Vec3::length_squared`. -/
def Vec3.lengthSquared (v : Vec3) : ℝ := v.dot v

/-- Length, as in `glam::Vec3::length` (`sqrt` of the self dot product). -/
noncomputable def Vec3.length (v : Vec3) : ℝ := Real.sqrt (v.dot v)

/-- Reciprocal length, as in `glam::Vec3::length_recip` (`1.0 / length`). -/
noncomputable def Vec3.lengthRecip (v : Vec3) : ℝ := 1 / v.length

/-- Normalization, as in `glam::Vec3::normalize` (`self * length_recip`).
Over exact reals `1 / 0 = 0`, so the zero vector maps to zero; the IEEE
behaviour (NaN) is modelled in `FPModel`. -/
noncomputable def Vec3.normalize (v : Vec3) : Vec3 := v * v.lengthRecip

/-- Length clamping, as in `glam::Vec3::clamp_length_max`. -/
noncomputable def Vec3.clampLengthMax (v : Vec3) (maxLen : ℝ) : Vec3 :=
  if maxLen * maxLen < v.lengthSquared then
    maxLen • (v / Real.sqrt v.lengthSquared)
  else v

/-- Rust `f32::powi` restricted to natural exponents. -/
def powi (x : ℝ) (n : ℕ) : ℝ := x ^ n

/-- Column-major 3x3 matrix, mirroring `glam::Mat3`. -/
structure Mat3 where
  xAxis : Vec3
  yAxis : Vec3
  zAxis : Vec3

/-- Axis-angle rotation matrix, as built by `glam::Mat3::from_axis_angle`
(Rodrigues formula, column major; `omc` of the source is `1 - cos`). -/
noncomputable def Mat3.fromAxisAngle (axis : Vec3) (angle : ℝ) : Mat3 :=
  ⟨⟨axis.x * axis.x * (1 - Real.cos angle) + Real.cos angle,
    axis.x * axis.y * (1 - Real.cos angle) + axis.z * Real.sin angle,
    axis.x * axis.z * (1 - Real.cos angle) - axis.y * Real.sin angle⟩,
   ⟨axis.x * axis.y * (1 - Real.cos angle) - axis.z * Real.sin angle,
    axis.y * axis.y * (1 - Real.cos angle) + Real.cos angle,
    axis.y * axis.z * (1 - Real.cos angle) + axis.x * Real.sin angle⟩,
   ⟨axis.x * axis.z * (1 - Real.cos angle) + axis.y * Real.sin angle,
    axis.y * axis.z * (1 - Real.cos angle) - axis.x * Real.sin angle,
    axis.z * axis.z * (1 - Real.cos angle) + Real.cos angle⟩⟩

/-- Matrix-vector product, as in `glam::Mat3::mul_vec3`. -/
def Mat3.mulVec3 (m : Mat3) (v : Vec3) : Vec3 :=
  m.xAxis * v.x + m.yAxis * v.y + m.zAxis * v.z

/-- A mesh vertex: position plus render-only surface coordinate and color
(`macroquad::models::Vertex`). -/
structure Vertex where
  position : Vec3
  uv : ℝ × ℝ
  color : ℕ × ℕ × ℕ × ℕ

/-- A triangle mesh (`macroquad::models::Mesh`): vertex list, flat index
list (each consecutive triple names a triangle), opaque texture handle. -/
structure Mesh where
  vertices : List Vertex
  indices : List ℕ
  texture : Option ℕ

/-- Chase camera state (the fields of `macroquad::camera::Camera3D` that the
simulation writes). -/
structure Camera where
  position : Vec3
  target : Vec3
  up : Vec3

/-- The aircraft body (`struct Plane` of the source). -/
structure Plane where
  head : Vec3
  center : Vec3
  right_wing_tip : Vec3
  velocity : Vec3
  angular_velocity : Vec3
  acceleration : Vec3
  mesh : Mesh
  camera : Camera

/-- Source `_get_head_from_vertices`: `max_by` over the positions comparing
`x`; Rust's `max_by` keeps the later element on ties and panics (`unwrap`)
on an empty list, modelled by `Option`. -/
def getHeadFromVertices (vertices : List Vertex) : Option Vec3 :=
  match vertices with
  | [] => none
  | v :: rest =>
    some (rest.foldl (fun best w => if w.position.x < best.x then best else w.position) v.position)

/-- The key `(position.z * 100.) as usize` of `_get_right_wing_tip_from_vertices`:
an `f32`-to-`usize` cast truncates toward zero and saturates negative values
to zero, which agrees with `Int.toNat` of the floor for every argument. -/
noncomputable def rwtKey (p : Vec3) : ℕ := (⌊p.z * 100⌋).toNat

/-- Source `_get_right_wing_tip_from_vertices`: `max_by_key` with `rwtKey`,
keeping the later element on ties, `none` on an empty list. -/
noncomputable def getRightWingTipFromVertices (vertices : List Vertex) : Option Vec3 :=
  match vertices with
  | [] => none
  | v :: rest =>
    some (rest.foldl (fun best w => if rwtKey w.position < rwtKey best then best else w.position)
      v.position)

/-- Source `_get_center_from_vertices`: sum of the positions (a left fold, as
`reduce`) divided by the vertex count; `none` on an empty list (`unwrap`). -/
def getCenterFromVertices (vertices : List Vertex) : Option Vec3 :=
  match vertices with
  | [] => none
  | v :: rest =>
    some ((rest.foldl (fun acc w => acc + w.position) v.position) / ((rest.length + 1 : ℕ) : ℝ))

/-- Derived axis `Plane::up`. -/
noncomputable def Plane.up (p : Plane) : Vec3 :=
  ((p.right_wing_tip - p.center).cross (p.head - p.center)).normalize

/-- Derived axis `Plane::forward`. -/
noncomputable def Plane.forward (p : Plane) : Vec3 := (p.head - p.center).normalize

/-- Derived axis `Plane::backward`. -/
noncomputable def Plane.backward (p : Plane) : Vec3 := -p.forward

/-- Derived axis `Plane::right`. -/
noncomputable def Plane.rightAxis (p : Plane) : Vec3 := (p.right_wing_tip - p.center).normalize

/-- Source `_get_camera_vectors`: (position, target, up) of the chase camera,
anchored at the body's center. -/
noncomputable def getCameraVectors (plane : Plane) : Vec3 × Vec3 × Vec3 :=
  (plane.center + plane.up * (2 : ℝ) + plane.forward * (-2 : ℝ),
   plane.center + plane.forward * (3 : ℝ),
   plane.up)

/-- Source `Plane::new`: extracts the three markers from the vertices, zeroes
the dynamic state, then overwrites the camera.  Note the source sets
`camera.position = up*2 + forward*(-2)` and `camera.target = forward*3`
without adding `center` (unlike `_get_camera_vectors`). -/
noncomputable def Plane.new (mesh : Mesh) : Option Plane :=
  match getHeadFromVertices mesh.vertices, getCenterFromVertices mesh.vertices,
      getRightWingTipFromVertices mesh.vertices with
  | some head, some center, some rwt =>
    let plane : Plane :=
      { head := head
        center := center
        right_wing_tip := rwt
        velocity := 0
        angular_velocity := 0
        acceleration := 0
        mesh := mesh
        camera := ⟨0, 0, 0⟩ }
    some { plane with
      camera := ⟨plane.up * (2 : ℝ) + plane.forward * (-2 : ℝ), plane.forward * (3 : ℝ), plane.up⟩ }
  | _, _, _ => none

/-- Source `Plane::translate_by`: shift every vertex and the two markers,
recompute `center` as the vertex mean, recompute the camera. -/
noncomputable def Plane.translateBy (p : Plane) (moveVector : Vec3) : Option Plane :=
  let vs := p.mesh.vertices.map fun v => { v with position := v.position + moveVector }
  match getCenterFromVertices vs with
  | none => none
  | some c =>
    let q : Plane :=
      { p with
        mesh := { p.mesh with vertices := vs }
        head := p.head + moveVector
        right_wing_tip := p.right_wing_tip + moveVector
        center := c }
    let t := getCameraVectors q
    some { q with camera := ⟨t.1, t.2.1, t.2.2⟩ }

/-- Source `Plane::rotate_by_axis_angle`: rotate every vertex and the two
markers about the current center, recompute `center` as the vertex mean,
recompute the camera. -/
noncomputable def Plane.rotateByAxisAngle (p : Plane) (axis : Vec3) (angle : ℝ) : Option Plane :=
  let rotationMatrix := Mat3.fromAxisAngle axis angle
  let vs := p.mesh.vertices.map fun v =>
    { v with position := rotationMatrix.mulVec3 (v.position - p.center) + p.center }
  match getCenterFromVertices vs with
  | none => none
  | some c =>
    let q : Plane :=
      { p with
        mesh := { p.mesh with vertices := vs }
        head := rotationMatrix.mulVec3 (p.head - p.center) + p.center
        right_wing_tip := rotationMatrix.mulVec3 (p.right_wing_tip - p.center) + p.center
        center := c }
    let t := getCameraVectors q
    some { q with camera := ⟨t.1, t.2.1, t.2.2⟩ }

/-- Source `Plane::rotate_by`: roll about the current forward axis, then yaw
about the (new) up axis, then pitch about the (new) right axis. -/
noncomputable def Plane.rotateBy (p : Plane) (rotateVector : Vec3) : Option Plane :=
  match p.rotateByAxisAngle p.forward rotateVector.x with
  | none => none
  | some p1 =>
    match p1.rotateByAxisAngle p1.up rotateVector.y with
    | none => none
    | some p2 => p2.rotateByAxisAngle p2.rightAxis rotateVector.z

/-- Rust `chunks_exact(3)` over the index list: consecutive triples, any
remainder dropped. -/
def chunks3 : List ℕ → List (ℕ × ℕ × ℕ)
  | a :: b :: c :: rest => (a, b, c) :: chunks3 rest
  | _ => []

/-- Look up one index triple and subtract `center`, as the closure inside
`get_aerodynamic_force_and_torque` does; out-of-range indexing panics in
Rust, modelled by `none`. -/
def resolveTriangle (vertices : List Vertex) (center : Vec3) (t : ℕ × ℕ × ℕ) :
    Option (Vec3 × Vec3 × Vec3) :=
  match vertices.get? t.1, vertices.get? t.2.1, vertices.get? t.2.2 with
  | some a, some b, some c => some (a.position - center, b.position - center, c.position - center)
  | _, _, _ => none

/-- Resolve every triangle of the index list. -/
def resolveTriangles (vertices : List Vertex) (center : Vec3) :
    List (ℕ × ℕ × ℕ) → Option (List (Vec3 × Vec3 × Vec3))
  | [] => some []
  | t :: rest =>
    match resolveTriangle vertices center t, resolveTriangles vertices center rest with
    | some v, some vs => some (v :: vs)
    | _, _ => none

/-- The per-triangle force and torque of the loop body of
`get_aerodynamic_force_and_torque`. -/
noncomputable def aeroContribution (velocity : Vec3) (tri : Vec3 × Vec3 × Vec3) : Vec3 × Vec3 :=
  let i := tri.1
  let j := tri.2.1
  let k := tri.2.2
  let side1 := i - j
  let side2 := j - k
  let centroid := (i + j + k) / (3 : ℝ)
  let normal := (side1.cross side2).normalize
  let area := ((side1.cross side2) * (0.5 : ℝ)).length
  let tangentialVelocity := velocity - (velocity.dot normal) * normal
  let force := powi tangentialVelocity.length 2 * area * normal
  let torque := (-(centroid.cross force)) * powi centroid.lengthRecip 2
  (force, torque)

/-- The accumulated `(res_force, res_torque)` of the loop. -/
noncomputable def aeroAccumulate (velocity : Vec3) (tris : List (Vec3 × Vec3 × Vec3)) :
    Vec3 × Vec3 :=
  tris.foldl (fun acc tri =>
    let ft := aeroContribution velocity tri
    (acc.1 + ft.1, acc.2 + ft.2)) (0, 0)

/-- Source `Plane::get_aerodynamic_force_and_torque`: the accumulated force
scaled by `0.1` and a hardcoded `Vec3::ZERO` torque (the scaled-torque
variant is commented out in the source). -/
noncomputable def Plane.getAerodynamicForceAndTorque (p : Plane) : Option (Vec3 × Vec3) :=
  match resolveTriangles p.mesh.vertices p.center (chunks3 p.mesh.indices) with
  | none => none
  | some tris =>
    let acc := aeroAccumulate p.velocity tris
    some (acc.1 * (0.1 : ℝ), 0)

/-- The accumulated `res_torque` of the loop of
`get_aerodynamic_force_and_torque`, before the function discards it. -/
noncomputable def Plane.aeroTorqueAccum (p : Plane) : Option Vec3 :=
  match resolveTriangles p.mesh.vertices p.center (chunks3 p.mesh.indices) with
  | none => none
  | some tris => some (aeroAccumulate p.velocity tris).2

/-- Unit x vector `Vec3::X`. -/
def unitX : Vec3 := ⟨1, 0, 0⟩

/-- Unit z vector `Vec3::Z`. -/
def unitZ : Vec3 := ⟨0, 0, 1⟩

/-- Source `Plane::update`: aerodynamics, Euler velocity updates, floor and
ceiling policy, toroidal x/z wrap, speed clamps, translation, rotation,
angular damping - in the source's order. -/
noncomputable def Plane.update (p : Plane) (dt : ℝ) (thrust torque wind gravity : Vec3) :
    Option Plane :=
  match p.getAerodynamicForceAndTorque with
  | none => none
  | some (aerodynamicForce, aerodynamicTorque) =>
    let acceleration := aerodynamicForce + thrust + wind + gravity
    let angularAcceleration := aerodynamicTorque + torque
    let angularVelocity := p.angular_velocity + angularAcceleration * dt
    let velocity0 := p.velocity + acceleration * dt
    let velocity1 :=
      if p.center.y ≤ 1 ∧ velocity0.y < 0 then ⟨velocity0.x, 0, velocity0.z⟩ else velocity0
    let velocity2 :=
      if 49 ≤ p.center.y ∧ 0 < velocity1.y then ⟨velocity1.x, 0, velocity1.z⟩ else velocity1
    let q : Plane :=
      { p with
        acceleration := acceleration
        angular_velocity := angularVelocity
        velocity := velocity2 }
    (if 500 ≤ q.center.x then q.translateBy (unitX * (-1000 : ℝ)) else some q).bind fun q1 =>
    (if q1.center.x ≤ -500 then q1.translateBy (unitX * (1000 : ℝ)) else some q1).bind fun q2 =>
    (if 500 ≤ q2.center.z then q2.translateBy (unitZ * (-1000 : ℝ)) else some q2).bind fun q3 =>
    (if q3.center.z ≤ -500 then q3.translateBy (unitZ * (1000 : ℝ)) else some q3).bind fun q4 =>
    let q5 : Plane :=
      { q4 with
        velocity := q4.velocity.clampLengthMax 50
        angular_velocity := q4.angular_velocity.clampLengthMax 5 }
    (q5.translateBy (q5.velocity * dt)).bind fun q6 =>
    (q6.rotateBy (q6.angular_velocity * dt)).map fun q7 =>
    { q7 with angular_velocity := q7.angular_velocity * (0.99 : ℝ) }

/-- A sequence of `update` calls with all-zero control inputs, one per
supplied time step. -/
noncomputable def Plane.updates (p : Plane) : List ℝ → Option Plane
  | [] => some p
  | dt :: rest =>
    match p.update dt 0 0 0 0 with
    | none => none
    | some q => q.updates rest

/-- A Body Frame operation: the three mutators of the pose. -/
inductive BodyOp where
  | translate (v : Vec3)
  | rotAxisAngle (axis : Vec3) (angle : ℝ)
  | rotEuler (r : Vec3)

/-- Apply one Body Frame operation. -/
noncomputable def applyOp (p : Plane) : BodyOp → Option Plane
  | .translate v => p.translateBy v
  | .rotAxisAngle axis angle => p.rotateByAxisAngle axis angle
  | .rotEuler r => p.rotateBy r

/-- Apply a sequence of Body Frame operations. -/
noncomputable def applyOps (p : Plane) : List BodyOp → Option Plane
  | [] => some p
  | op :: rest =>
    match applyOp p op with
    | none => none
    | some q => applyOps q rest

/-- The floor/ceiling vertical-velocity policy of `Plane::update` (the two
`if` statements on `self.velocity.y`), factored for stating lemmas. -/
noncomputable def groundCeil (p : Plane) (velocity0 : Vec3) : Vec3 :=
  if 49 ≤ p.center.y ∧
      0 < (if p.center.y ≤ 1 ∧ velocity0.y < 0 then
        (⟨velocity0.x, 0, velocity0.z⟩ : Vec3) else velocity0).y then
    ⟨(if p.center.y ≤ 1 ∧ velocity0.y < 0 then
        (⟨velocity0.x, 0, velocity0.z⟩ : Vec3) else velocity0).x, 0,
      (if p.center.y ≤ 1 ∧ velocity0.y < 0 then
        (⟨velocity0.x, 0, velocity0.z⟩ : Vec3) else velocity0).z⟩
  else (if p.center.y ≤ 1 ∧ velocity0.y < 0 then
    (⟨velocity0.x, 0, velocity0.z⟩ : Vec3) else velocity0)

/-- The plane after the field updates of `translate_by`, before the final
camera recompute; used to state evaluation lemmas. -/
noncomputable def Plane.shiftedBody (p : Plane) (v : Vec3) : Plane :=
  { p with
    mesh := { p.mesh with
      vertices := p.mesh.vertices.map fun w => { w with position := w.position + v } }
    head := p.head + v
    right_wing_tip := p.right_wing_tip + v
    center := p.center + v }

/-- The plane after the field updates of `rotate_by_axis_angle` about its own
center, before the final camera recompute; used to state evaluation lemmas. -/
noncomputable def Plane.rotatedBody (p : Plane) (axis : Vec3) (angle : ℝ) : Plane :=
  { p with
    mesh := { p.mesh with
      vertices := p.mesh.vertices.map fun w =>
        { w with position := (Mat3.fromAxisAngle axis angle).mulVec3 (w.position - p.center) + p.center } }
    head := (Mat3.fromAxisAngle axis angle).mulVec3 (p.head - p.center) + p.center
    right_wing_tip := (Mat3.fromAxisAngle axis angle).mulVec3 (p.right_wing_tip - p.center) + p.center }

/-- A plane whose camera has been recomputed by `_get_camera_vectors`. -/
noncomputable def Plane.withCanonCamera (p : Plane) : Plane :=
  { p with
    camera :=
      ⟨(getCameraVectors p).1, (getCameraVectors p).2.1, (getCameraVectors p).2.2⟩ }

/-- The point set whose pairwise distances rigid transforms must preserve:
all vertex positions plus the three tracked markers. -/
def Plane.trackedPoints (p : Plane) : List Vec3 :=
  p.mesh.vertices.map Vertex.position ++ [p.head, p.center, p.right_wing_tip]

/-- Euclidean distance between two tracked points. -/
noncomputable def pdist (a b : Vec3) : ℝ := (a - b).length

/-- Every triangle index of the mesh is a valid vertex offset (the mesh
invariant of the spec's data model). -/
def ValidIndices (m : Mesh) : Prop := ∀ i ∈ m.indices, i < m.vertices.length

/-- No triangle of the plane's mesh has a zero cross product of its sides
(no zero-area triangle), phrased on the resolved body-local triangles. -/
def Plane.noZeroAreaTriangles (p : Plane) : Prop :=
  ∀ t ∈ chunks3 p.mesh.indices, ∀ a b c,
    resolveTriangle p.mesh.vertices p.center t = some (a, b, c) →
    (a - b).cross (b - c) ≠ 0

/-- The derived basis is orthonormal: mutually orthogonal and unit length. -/
noncomputable def Plane.orthonormalBasis (p : Plane) : Prop :=
  Vec3.dot p.forward p.rightAxis = 0 ∧ Vec3.dot p.up p.forward = 0 ∧
  Vec3.dot p.up p.rightAxis = 0 ∧
  p.forward.length = 1 ∧ p.rightAxis.length = 1 ∧ p.up.length = 1

/-- Well-formedness of one Body Frame operation: an explicit axis-angle
rotation must use a unit axis (`rotate_by` derives its own unit axes). -/
noncomputable def OpWF : BodyOp → Prop
  | .translate _ => True
  | .rotAxisAngle axis _ => axis.length = 1
  | .rotEuler _ => True

/-- The camera invariant of the spec: position behind and above the center,
target ahead of the nose, camera up equal to the body's up. -/
noncomputable def Plane.cameraRigidOffset (p : Plane) : Prop :=
  p.camera.position = p.center + p.up * (2 : ℝ) + p.forward * (-2 : ℝ) ∧
  p.camera.target = p.center + p.forward * (3 : ℝ) ∧
  p.camera.up = p.up

/-- A vertex as the loader builds them: position plus the constant color and
an arbitrary surface coordinate. -/
def mkVertex (pos : Vec3) : Vertex := ⟨pos, (0, 0), (127, 127, 127, 255)⟩

/-- A plane with no triangles at all (empty index list); any value works for
the remaining fields. -/
def emptyIndexPlane : Plane :=
  { head := 0, center := 0, right_wing_tip := 0, velocity := 0, angular_velocity := 0,
    acceleration := 0, mesh := ⟨[], [], none⟩, camera := ⟨0, 0, 0⟩ }

/-- A single right triangle about a center at the origin, travelling along x:
the fixture on which the discarded torque accumulation is nonzero. -/
def torquePlane : Plane :=
  { head := ⟨1, 0, 0⟩, center := 0, right_wing_tip := ⟨0, 1, 0⟩,
    velocity := ⟨1, 0, 0⟩, angular_velocity := 0, acceleration := 0,
    mesh := ⟨[mkVertex ⟨0, 0, 0⟩, mkVertex ⟨1, 0, 0⟩, mkVertex ⟨0, 1, 0⟩], [0, 1, 2], none⟩,
    camera := ⟨0, 0, 0⟩ }

/-- The vertex positions shared by the base fixtures: a single triangle with
mean `(0,7,0)`. -/
def baseVertices : List Vertex :=
  [mkVertex ⟨4, 7, 0⟩, mkVertex ⟨-2, 7, 3⟩, mkVertex ⟨-2, 7, -3⟩]

/-- The base fixture: one triangle whose mean is `(0,7,0)`, with marker
offsets `head - center = (4,0,0)` and `right_wing_tip - center = (-2,0,3)`,
zero dynamic state and an already-canonical camera. -/
def basePlane : Plane :=
  { head := ⟨4, 7, 0⟩, center := ⟨0, 7, 0⟩, right_wing_tip := ⟨-2, 7, 3⟩,
    velocity := 0, angular_velocity := 0, acceleration := 0,
    mesh := ⟨baseVertices, [0, 1, 2], none⟩,
    camera := ⟨⟨-2, 9, 0⟩, ⟨3, 7, 0⟩, ⟨0, 1, 0⟩⟩ }

/-- `basePlane` after `translate_by((1,0,0))`. -/
def basePlaneShifted : Plane :=
  { head := ⟨5, 7, 0⟩, center := ⟨1, 7, 0⟩, right_wing_tip := ⟨-1, 7, 3⟩,
    velocity := 0, angular_velocity := 0, acceleration := 0,
    mesh := ⟨[mkVertex ⟨5, 7, 0⟩, mkVertex ⟨-1, 7, 3⟩, mkVertex ⟨-1, 7, -3⟩], [0, 1, 2], none⟩,
    camera := ⟨⟨-1, 9, 0⟩, ⟨4, 7, 0⟩, ⟨0, 1, 0⟩⟩ }

/-- The mesh of `basePlane`, fed to `Plane::new` (its mean is `(0,7,0)`,
away from the origin). -/
def meshM4 : Mesh := ⟨baseVertices, [0, 1, 2], none⟩

/-- What `Plane::new meshM4` constructs: note the camera position/target
lack the `center` term. -/
def builtPlaneM4 : Plane :=
  { head := ⟨4, 7, 0⟩, center := ⟨0, 7, 0⟩, right_wing_tip := ⟨-2, 7, 3⟩,
    velocity := 0, angular_velocity := 0, acceleration := 0,
    mesh := meshM4,
    camera := ⟨⟨-2, 2, 0⟩, ⟨3, 0, 0⟩, ⟨0, 1, 0⟩⟩ }

/-- A degenerate mesh: every vertex at the same point, so head, center and
wingtip all coincide. -/
def meshCoincident : Mesh :=
  ⟨[mkVertex ⟨1, 2, 3⟩, mkVertex ⟨1, 2, 3⟩, mkVertex ⟨1, 2, 3⟩], [0, 0, 0], none⟩

/-- What `Plane::new meshCoincident` constructs: coinciding markers and a
collapsed camera. -/
def planeCoincident : Plane :=
  { head := ⟨1, 2, 3⟩, center := ⟨1, 2, 3⟩, right_wing_tip := ⟨1, 2, 3⟩,
    velocity := 0, angular_velocity := 0, acceleration := 0,
    mesh := meshCoincident, camera := ⟨0, 0, 0⟩ }

/-- A mesh whose index list points past the vertex list. -/
def meshOutOfRange : Mesh := ⟨baseVertices, [0, 1, 7], none⟩

/-- What `Plane::new meshOutOfRange` constructs (`new` never looks at the
index list). -/
def builtPlaneOOR : Plane :=
  { head := ⟨4, 7, 0⟩, center := ⟨0, 7, 0⟩, right_wing_tip := ⟨-2, 7, 3⟩,
    velocity := 0, angular_velocity := 0, acceleration := 0,
    mesh := meshOutOfRange,
    camera := ⟨⟨-2, 2, 0⟩, ⟨3, 0, 0⟩, ⟨0, 1, 0⟩⟩ }

/-- A plane whose marker offsets are distinct from the center but not
orthogonal: `head - center = (1,0,0)`, `right_wing_tip - center = (3,4,0)`. -/
def skewPlane : Plane :=
  { head := ⟨1, 0, 0⟩, center := 0, right_wing_tip := ⟨3, 4, 0⟩,
    velocity := 0, angular_velocity := 0, acceleration := 0,
    mesh := ⟨[mkVertex ⟨1, 0, 0⟩, mkVertex ⟨3, 4, 0⟩, mkVertex ⟨-4, -4, 0⟩], [0, 1, 2], none⟩,
    camera := ⟨0, 0, 0⟩ }

/-- `skewPlane` after `translate_by((1,1,1))`. -/
def skewPlaneShifted : Plane :=
  { head := ⟨2, 1, 1⟩, center := ⟨1, 1, 1⟩, right_wing_tip := ⟨4, 5, 1⟩,
    velocity := 0, angular_velocity := 0, acceleration := 0,
    mesh := ⟨[mkVertex ⟨2, 1, 1⟩, mkVertex ⟨4, 5, 1⟩, mkVertex ⟨-3, -3, 1⟩], [0, 1, 2], none⟩,
    camera := ⟨⟨-1, 1, -1⟩, ⟨4, 1, 1⟩, ⟨0, 0, -1⟩⟩ }

/-- A plane with orthogonal marker offsets `(4,0,0)` and `(0,0,3)` about a
zero-mean triangle, with canonical camera. -/
def orthoPlane : Plane :=
  { head := ⟨4, 0, 0⟩, center := 0, right_wing_tip := ⟨0, 0, 3⟩,
    velocity := 0, angular_velocity := 0, acceleration := 0,
    mesh := ⟨[mkVertex ⟨4, 0, 0⟩, mkVertex ⟨0, 0, 3⟩, mkVertex ⟨-4, 0, -3⟩], [0, 1, 2], none⟩,
    camera := ⟨⟨-2, 2, 0⟩, ⟨3, 0, 0⟩, ⟨0, 1, 0⟩⟩ }

/-- `orthoPlane` after `translate_by((1,2,3))`. -/
def orthoPlaneShifted : Plane :=
  { head := ⟨5, 2, 3⟩, center := ⟨1, 2, 3⟩, right_wing_tip := ⟨1, 2, 6⟩,
    velocity := 0, angular_velocity := 0, acceleration := 0,
    mesh := ⟨[mkVertex ⟨5, 2, 3⟩, mkVertex ⟨1, 2, 6⟩, mkVertex ⟨-3, 2, 0⟩], [0, 1, 2], none⟩,
    camera := ⟨⟨-1, 4, 3⟩, ⟨4, 2, 3⟩, ⟨0, 1, 0⟩⟩ }

/-- The base fixture lowered so its center sits on the altitude floor, with
a downward velocity. -/
def floorPlane : Plane :=
  { head := ⟨4, 1, 0⟩, center := ⟨0, 1, 0⟩, right_wing_tip := ⟨-2, 1, 3⟩,
    velocity := ⟨0, -5, 0⟩, angular_velocity := 0, acceleration := 0,
    mesh := ⟨[mkVertex ⟨4, 1, 0⟩, mkVertex ⟨-2, 1, 3⟩, mkVertex ⟨-2, 1, -3⟩], [0, 1, 2], none⟩,
    camera := ⟨⟨-2, 3, 0⟩, ⟨3, 1, 0⟩, ⟨0, 1, 0⟩⟩ }

/-- `floorPlane` after the inelastic floor zeroes its vertical velocity. -/
def floorPlaneStopped : Plane :=
  { floorPlane with velocity := 0 }

namespace FPModel

/-- An IEEE-754 `f32` value as this development needs to distinguish them: a
finite value (held as an exact rational; rounding and exponent overflow are
not modelled, so finite operations are exact), an infinity of either sign,
or NaN.  The operation tables below follow IEEE 754 on these cases. -/
inductive FP where
  | num (q : ℚ)
  | inf
  | ninf
  | nan
deriving DecidableEq

/-- IEEE negation. -/
def FP.neg : FP → FP
  | num q => num (-q)
  | inf => ninf
  | ninf => inf
  | nan => nan

/-- IEEE addition: NaN absorbs, opposite infinities give NaN. -/
def FP.add : FP → FP → FP
  | nan, _ => nan
  | _, nan => nan
  | inf, ninf => nan
  | ninf, inf => nan
  | inf, _ => inf
  | _, inf => inf
  | ninf, _ => ninf
  | _, ninf => ninf
  | num a, num b => num (a + b)

/-- IEEE subtraction, as addition of the negation. -/
def FP.sub (a b : FP) : FP := a.add b.neg

/-- IEEE multiplication: NaN absorbs, zero times infinity is NaN. -/
def FP.mul : FP → FP → FP
  | nan, _ => nan
  | _, nan => nan
  | num a, num b => num (a * b)
  | num a, inf => if a = 0 then nan else if 0 < a then inf else ninf
  | num a, ninf => if a = 0 then nan else if 0 < a then ninf else inf
  | inf, num b => if b = 0 then nan else if 0 < b then inf else ninf
  | ninf, num b => if b = 0 then nan else if 0 < b then ninf else inf
  | inf, inf => inf
  | inf, ninf => ninf
  | ninf, inf => ninf
  | ninf, ninf => inf

/-- IEEE division: NaN absorbs, a nonzero finite value over zero is a signed
infinity (rationals have no negative zero, so zero is treated as `+0`),
zero over zero and infinity over infinity are NaN. -/
def FP.div : FP → FP → FP
  | nan, _ => nan
  | _, nan => nan
  | num a, num b =>
    if b = 0 then (if a = 0 then nan else if 0 < a then inf else ninf) else num (a / b)
  | num _, inf => num 0
  | num _, ninf => num 0
  | inf, num b => if 0 ≤ b then inf else ninf
  | ninf, num b => if 0 ≤ b then ninf else inf
  | inf, _ => nan
  | ninf, _ => nan

/-- IEEE square root: NaN for negative arguments.  On nonnegative finite
values `Rat.sqrt` stands in for the rounded `f32` square root; it is exact
at the perfect squares on which this development evaluates it. -/
def FP.sqrtv : FP → FP
  | nan => nan
  | inf => inf
  | ninf => nan
  | num q => if q < 0 then nan else num (Rat.sqrt q)

/-- Squaring, the `powi(2)` of the source. -/
def FP.powTwo (x : FP) : FP := x.mul x

/-- A 3-vector of IEEE values. -/
structure FVec3 where
  x : FP
  y : FP
  z : FP
deriving DecidableEq

/-- The zero vector `Vec3::ZERO`. -/
def FVec3.zero : FVec3 := ⟨FP.num 0, FP.num 0, FP.num 0⟩

/-- Componentwise addition. -/
def FVec3.add (a b : FVec3) : FVec3 := ⟨a.x.add b.x, a.y.add b.y, a.z.add b.z⟩

/-- Componentwise subtraction. -/
def FVec3.sub (a b : FVec3) : FVec3 := ⟨a.x.sub b.x, a.y.sub b.y, a.z.sub b.z⟩

/-- Componentwise negation. -/
def FVec3.neg (a : FVec3) : FVec3 := ⟨a.x.neg, a.y.neg, a.z.neg⟩

/-- Vector times scalar. -/
def FVec3.scale (v : FVec3) (c : FP) : FVec3 := ⟨v.x.mul c, v.y.mul c, v.z.mul c⟩

/-- Vector over scalar. -/
def FVec3.divScalar (v : FVec3) (c : FP) : FVec3 := ⟨v.x.div c, v.y.div c, v.z.div c⟩

/-- Dot product, in `glam`'s summation order. -/
def FVec3.dot (a b : FVec3) : FP := ((a.x.mul b.x).add (a.y.mul b.y)).add (a.z.mul b.z)

/-- Cross product, as in `glam::Vec3::cross`. -/
def FVec3.cross (a b : FVec3) : FVec3 :=
  ⟨(a.y.mul b.z).sub (b.y.mul a.z), (a.z.mul b.x).sub (b.z.mul a.x),
   (a.x.mul b.y).sub (b.x.mul a.y)⟩

/-- Length: square root of the self dot product. -/
def FVec3.length (v : FVec3) : FP := (v.dot v).sqrtv

/-- Reciprocal length: `1.0 / length`.  On a zero vector this is `1/0 = +inf`. -/
def FVec3.lengthRecip (v : FVec3) : FP := (FP.num 1).div v.length

/-- Normalization: `self * length_recip`.  On a zero vector each component
becomes `0 * inf = NaN`, the propagation this model exists to capture. -/
def FVec3.normalize (v : FVec3) : FVec3 := v.scale v.lengthRecip

/-- The loop body of `get_aerodynamic_force_and_torque` on IEEE values,
with the source's intermediate names. -/
def aeroContribution (velocity : FVec3) (tri : FVec3 × FVec3 × FVec3) : FVec3 × FVec3 :=
  let side1 := tri.1.sub tri.2.1
  let side2 := tri.2.1.sub tri.2.2
  let centroid := ((tri.1.add tri.2.1).add tri.2.2).divScalar (FP.num 3)
  let normal := (side1.cross side2).normalize
  let area := ((side1.cross side2).scale (FP.num (1/2))).length
  let tangentialVelocity := velocity.sub (normal.scale (velocity.dot normal))
  let force := normal.scale ((tangentialVelocity.length.powTwo).mul area)
  let torque := (centroid.cross force).neg.scale (centroid.lengthRecip.powTwo)
  (force, torque)

/-- The accumulated `(res_force, res_torque)` of the loop on IEEE values. -/
def aeroAccumulate (velocity : FVec3) (tris : List (FVec3 × FVec3 × FVec3)) : FVec3 × FVec3 :=
  tris.foldl (fun acc tri =>
    let ft := aeroContribution velocity tri
    (acc.1.add ft.1, acc.2.add ft.2)) (FVec3.zero, FVec3.zero)

/-- Triangle resolution on IEEE values: look up an index triple and subtract
the center. -/
def resolveTriangle (vertices : List FVec3) (center : FVec3) (t : ℕ × ℕ × ℕ) :
    Option (FVec3 × FVec3 × FVec3) :=
  match vertices.get? t.1, vertices.get? t.2.1, vertices.get? t.2.2 with
  | some a, some b, some c => some (a.sub center, b.sub center, c.sub center)
  | _, _, _ => none

/-- Resolve every triangle of the index list on IEEE values. -/
def resolveTriangles (vertices : List FVec3) (center : FVec3) :
    List (ℕ × ℕ × ℕ) → Option (List (FVec3 × FVec3 × FVec3))
  | [] => some []
  | t :: rest =>
    match resolveTriangle vertices center t, resolveTriangles vertices center rest with
    | some v, some vs => some (v :: vs)
    | _, _ => none

/-- `get_aerodynamic_force_and_torque` on IEEE values (vertex positions,
index list, the plane's center and velocity); `0.1` is `1/10` here, while
`f32` only approximates it - immaterial for the NaN facts proved below. -/
def getAero (vertices : List FVec3) (indices : List ℕ) (center velocity : FVec3) :
    Option (FVec3 × FVec3) :=
  match resolveTriangles vertices center (chunks3 indices) with
  | none => none
  | some tris =>
    some ((aeroAccumulate velocity tris).1.scale (FP.num (1/10)), FVec3.zero)

/-- The vertices of a mesh whose single triangle is degenerate: the three
positions are collinear, so the cross product of the sides is zero. -/
def degenVertices : List FVec3 :=
  [⟨FP.num 0, FP.num 0, FP.num 0⟩, ⟨FP.num 1, FP.num 1, FP.num 1⟩,
   ⟨FP.num 2, FP.num 2, FP.num 2⟩]

/-- The mean of `degenVertices`. -/
def degenCenter : FVec3 := ⟨FP.num 1, FP.num 1, FP.num 1⟩

/-- A unit velocity along x. -/
def velocityX : FVec3 := ⟨FP.num 1, FP.num 0, FP.num 0⟩

/-- The all-NaN vector. -/
def nanVec : FVec3 := ⟨FP.nan, FP.nan, FP.nan⟩

end FPModel

end

end FlightSim

namespace FlightSim

/-! ## General algebraic lemmas about the vector embedding -/

theorem Vec3.zero_hmul (c : ℝ) : (0 : Vec3) * c = 0 := by ext <;> simp

theorem Vec3.addZero (v : Vec3) : v + 0 = v := by ext <;> simp

theorem Vec3.dot_self_nonneg (v : Vec3) : 0 ≤ v.dot v := by
  have hx := mul_self_nonneg v.x
  have hy := mul_self_nonneg v.y
  have hz := mul_self_nonneg v.z
  unfold Vec3.dot
  linarith

theorem Vec3.dot_self_eq_zero_iff (v : Vec3) : v.dot v = 0 ↔ v = 0 := by
  constructor
  · intro h
    have hx := mul_self_nonneg v.x
    have hy := mul_self_nonneg v.y
    have hz := mul_self_nonneg v.z
    unfold Vec3.dot at h
    have hx0 : v.x = 0 := by nlinarith
    have hy0 : v.y = 0 := by nlinarith
    have hz0 : v.z = 0 := by nlinarith
    ext <;> simp [hx0, hy0, hz0]
  · intro h
    subst h
    unfold Vec3.dot
    simp

theorem Vec3.dot_self_pos (v : Vec3) (h : v ≠ 0) : 0 < v.dot v := by
  rcases lt_or_eq_of_le (Vec3.dot_self_nonneg v) with hlt | heq
  · exact hlt
  · exact absurd ((Vec3.dot_self_eq_zero_iff v).1 heq.symm) h

theorem sqrt_eval {a b : ℝ} (hb : 0 ≤ b) (h : b * b = a) : Real.sqrt a = b := by
  rw [← h]; exact Real.sqrt_mul_self hb

theorem sq_one_div_sqrt (a : ℝ) (ha : 0 ≤ a) : (1 / Real.sqrt a) ^ 2 = 1 / a := by
  rw [div_pow, one_pow, Real.sq_sqrt ha]

theorem Vec3.length_nonneg (v : Vec3) : 0 ≤ v.length := Real.sqrt_nonneg _

theorem Vec3.length_eq_one_iff_dot (v : Vec3) : v.length = 1 ↔ v.dot v = 1 := by
  unfold Vec3.length
  constructor
  · intro h
    have := Real.sq_sqrt (Vec3.dot_self_nonneg v)
    rw [h] at this
    simpa using this.symm
  · intro h
    rw [h, Real.sqrt_one]

/-! ## Claim C1: the returned aerodynamic torque -/

/-- C1 (amended): the torque returned by `get_aerodynamic_force_and_torque`
is identically `Vec3::ZERO` for every mesh, center and velocity; the
per-triangle torque accumulation is computed and then discarded, so there is
no independently tunable torque coefficient and no configurable policy. -/
theorem aero_torque_returned_always_zero (p : Plane) (r : Vec3 × Vec3)
    (h : p.getAerodynamicForceAndTorque = some r) : r.2 = 0 := by
  unfold Plane.getAerodynamicForceAndTorque at h
  rcases heq : resolveTriangles p.mesh.vertices p.center (chunks3 p.mesh.indices) with _ | tris
  · rw [heq] at h; exact absurd h (by simp)
  · rw [heq] at h
    simp only [Option.some.injEq] at h
    rw [← h]

theorem getAero_emptyIndexPlane :
    emptyIndexPlane.getAerodynamicForceAndTorque = some (0, 0) := by
  norm_num [emptyIndexPlane, Plane.getAerodynamicForceAndTorque, chunks3, resolveTriangles,
    aeroAccumulate, Vec3.zero_hmul]

/-- Witness for C1 at a concrete plane. -/
theorem aero_torque_returned_always_zero_witness :
    ∃ r : Vec3 × Vec3, emptyIndexPlane.getAerodynamicForceAndTorque = some r ∧ r.2 = 0 :=
  ⟨(0, 0), getAero_emptyIndexPlane,
    aero_torque_returned_always_zero emptyIndexPlane (0, 0) getAero_emptyIndexPlane⟩

theorem getAero_torquePlane :
    torquePlane.getAerodynamicForceAndTorque = some (⟨0, 0, 1/20⟩, 0) := by
  have h4 : Real.sqrt 4 = 2 := sqrt_eval (by norm_num) (by norm_num)
  norm_num [torquePlane, Plane.getAerodynamicForceAndTorque, chunks3, resolveTriangles,
    resolveTriangle, aeroAccumulate, aeroContribution, mkVertex, Vec3.normalize,
    Vec3.lengthRecip, Vec3.length, Vec3.cross, Vec3.dot, powi, List.get?, h4, Vec3.ext_iff]

theorem aeroTorqueAccum_torquePlane :
    torquePlane.aeroTorqueAccum = some ⟨-(3/4), 3/4, 0⟩ := by
  have h4 : Real.sqrt 4 = 2 := sqrt_eval (by norm_num) (by norm_num)
  have h2 : Real.sqrt 2 ^ 2 = 2 := Real.sq_sqrt (by norm_num)
  have h9 : Real.sqrt 9 ^ 2 = 9 := Real.sq_sqrt (by norm_num)
  norm_num [torquePlane, Plane.aeroTorqueAccum, chunks3, resolveTriangles,
    resolveTriangle, aeroAccumulate, aeroContribution, mkVertex, Vec3.normalize,
    Vec3.lengthRecip, Vec3.length, Vec3.cross, Vec3.dot, powi, List.get?, h4, Vec3.ext_iff,
    div_pow, h2, h9]

/-- C1 counterexample: at a concrete single-triangle mesh moving along x the
loop's accumulated torque is the nonzero `(-3/4, 3/4, 0)`, yet the function
returns the zero torque - not that accumulation under any nonzero
coefficient. -/
theorem aero_torque_discards_nonzero_accumulation :
    torquePlane.velocity ≠ 0 ∧
    torquePlane.aeroTorqueAccum = some ⟨-(3/4), 3/4, 0⟩ ∧
    (⟨-(3/4), 3/4, 0⟩ : Vec3) ≠ 0 ∧
    torquePlane.getAerodynamicForceAndTorque = some (⟨0, 0, 1/20⟩, 0) := by
  refine ⟨?_, aeroTorqueAccum_torquePlane, ?_, getAero_torquePlane⟩
  · intro h
    have := congrArg Vec3.x h
    norm_num [torquePlane] at this
  · intro h
    have := congrArg Vec3.y h
    norm_num at this

/-! ## Claim C2: zero-area triangles and NaN -/

/-- C2 (the code at the failing input): on a mesh whose single triangle is
degenerate (collinear vertices), the cross product of the triangle's sides
is exactly the zero vector, the per-triangle contribution of the IEEE model
is NaN in every component of both force and torque - not the zero
contribution the claim requires - and `get_aerodynamic_force_and_torque`
returns an all-NaN accumulated force (the returned torque is the hardcoded
zero). -/
theorem zero_area_triangle_produces_nan :
    FPModel.FVec3.cross
        (FPModel.FVec3.sub
          ⟨FPModel.FP.num (-1), FPModel.FP.num (-1), FPModel.FP.num (-1)⟩
          ⟨FPModel.FP.num 0, FPModel.FP.num 0, FPModel.FP.num 0⟩)
        (FPModel.FVec3.sub
          ⟨FPModel.FP.num 0, FPModel.FP.num 0, FPModel.FP.num 0⟩
          ⟨FPModel.FP.num 1, FPModel.FP.num 1, FPModel.FP.num 1⟩) =
      FPModel.FVec3.zero ∧
    FPModel.aeroContribution FPModel.velocityX
      (⟨FPModel.FP.num (-1), FPModel.FP.num (-1), FPModel.FP.num (-1)⟩,
        ⟨FPModel.FP.num 0, FPModel.FP.num 0, FPModel.FP.num 0⟩,
        ⟨FPModel.FP.num 1, FPModel.FP.num 1, FPModel.FP.num 1⟩) =
      (FPModel.nanVec, FPModel.nanVec) ∧
    FPModel.getAero FPModel.degenVertices [0, 1, 2] FPModel.degenCenter FPModel.velocityX =
      some (FPModel.nanVec, FPModel.FVec3.zero) := by
  refine ⟨?_, ?_, ?_⟩
  · norm_num [FPModel.FVec3.cross, FPModel.FVec3.sub, FPModel.FVec3.zero, FPModel.FP.sub,
      FPModel.FP.add, FPModel.FP.mul, FPModel.FP.neg]
  · norm_num [FPModel.aeroContribution, FPModel.FVec3.normalize, FPModel.FVec3.lengthRecip,
      FPModel.FVec3.length, FPModel.FVec3.cross, FPModel.FVec3.dot, FPModel.FVec3.sub,
      FPModel.FVec3.add, FPModel.FVec3.neg, FPModel.FVec3.scale, FPModel.FVec3.divScalar,
      FPModel.FP.powTwo, FPModel.FP.sqrtv, FPModel.FP.add, FPModel.FP.sub, FPModel.FP.mul,
      FPModel.FP.div, FPModel.FP.neg, FPModel.nanVec, FPModel.velocityX, Rat.sqrt]
  · norm_num [FPModel.getAero, FPModel.degenVertices, FPModel.degenCenter, FPModel.velocityX,
      chunks3, FPModel.resolveTriangles, FPModel.resolveTriangle, FPModel.aeroAccumulate,
      FPModel.aeroContribution, FPModel.FVec3.normalize, FPModel.FVec3.lengthRecip,
      FPModel.FVec3.length, FPModel.FVec3.cross, FPModel.FVec3.dot, FPModel.FVec3.sub,
      FPModel.FVec3.add, FPModel.FVec3.neg, FPModel.FVec3.scale, FPModel.FVec3.divScalar,
      FPModel.FVec3.zero, FPModel.FP.powTwo, FPModel.FP.sqrtv, FPModel.FP.add,
      FPModel.FP.sub, FPModel.FP.mul, FPModel.FP.div, FPModel.FP.neg, FPModel.nanVec,
      List.get?, Rat.sqrt]

/-! ## Claim C3: construction of degenerate meshes -/

theorem rwtKey_eval (p : Vec3) (z : ℤ) (h : p.z * 100 = (z : ℝ)) : rwtKey p = z.toNat := by
  unfold rwtKey
  rw [h, Int.floor_intCast]

theorem new_baseVertices (is : List ℕ) (t : Option ℕ) :
    Plane.new ⟨baseVertices, is, t⟩ = some
      { head := ⟨4, 7, 0⟩, center := ⟨0, 7, 0⟩, right_wing_tip := ⟨-2, 7, 3⟩,
        velocity := 0, angular_velocity := 0, acceleration := 0,
        mesh := ⟨baseVertices, is, t⟩,
        camera := ⟨⟨-2, 2, 0⟩, ⟨3, 0, 0⟩, ⟨0, 1, 0⟩⟩ } := by
  have h16 : Real.sqrt 16 = 4 := sqrt_eval (by norm_num) (by norm_num)
  have h144 : Real.sqrt 144 = 12 := sqrt_eval (by norm_num) (by norm_num)
  have k1 : rwtKey ⟨4, 7, 0⟩ = (0 : ℤ).toNat := rwtKey_eval _ 0 (by norm_num)
  have k2 : rwtKey ⟨-2, 7, 3⟩ = (300 : ℤ).toNat := rwtKey_eval _ 300 (by norm_num)
  have k3 : rwtKey ⟨-2, 7, -3⟩ = (-300 : ℤ).toNat := rwtKey_eval _ (-300) (by norm_num)
  norm_num [Plane.new, baseVertices, mkVertex, getHeadFromVertices, getCenterFromVertices,
    getRightWingTipFromVertices, k1, k2, k3, Plane.up, Plane.forward, Vec3.normalize,
    Vec3.lengthRecip, Vec3.length, Vec3.cross, Vec3.dot, h16, h144, Vec3.ext_iff]

theorem new_meshCoincident : Plane.new meshCoincident = some planeCoincident := by
  have k : rwtKey ⟨1, 2, 3⟩ = (300 : ℤ).toNat := rwtKey_eval _ 300 (by norm_num)
  norm_num [Plane.new, meshCoincident, planeCoincident, mkVertex, getHeadFromVertices,
    getCenterFromVertices, getRightWingTipFromVertices, k, Plane.up, Plane.forward,
    Vec3.normalize, Vec3.lengthRecip, Vec3.length, Vec3.cross, Vec3.dot, Vec3.ext_iff]

theorem getAero_builtPlaneOOR : builtPlaneOOR.getAerodynamicForceAndTorque = none := by
  norm_num [builtPlaneOOR, meshOutOfRange, baseVertices, mkVertex,
    Plane.getAerodynamicForceAndTorque, chunks3, resolveTriangles, resolveTriangle,
    List.get?]

/-- C3 (the code at the failing inputs): `Plane::new` performs no validation.
It accepts a mesh whose markers all coincide, building a Body with
`head = center` and `right_wing_tip = center` (whose axis normalizations
divide by zero); it accepts a mesh whose index list points past the vertex
list, never inspecting the indices, so the failure surfaces only later, when
`get_aerodynamic_force_and_torque` indexes out of range inside `update`; and
on a mesh with zero vertices the only "refusal" is the `unwrap` panic
(modelled `none`), a crash rather than a checked construction error. -/
theorem degenerate_mesh_construction_succeeds :
    (Plane.new meshCoincident = some planeCoincident ∧
      planeCoincident.head = planeCoincident.center ∧
      planeCoincident.right_wing_tip = planeCoincident.center) ∧
    (Plane.new meshOutOfRange = some builtPlaneOOR ∧
      ¬ ValidIndices meshOutOfRange ∧
      builtPlaneOOR.getAerodynamicForceAndTorque = none) ∧
    Plane.new ⟨[], [], none⟩ = none := by
  refine ⟨⟨new_meshCoincident, rfl, rfl⟩, ⟨?_, ?_, getAero_builtPlaneOOR⟩, rfl⟩
  · have h := new_baseVertices [0, 1, 7] none
    rw [show (⟨baseVertices, [0, 1, 7], none⟩ : Mesh) = meshOutOfRange from rfl] at h
    rw [h]
    rfl
  · intro hvalid
    have := hvalid 7 (by simp [meshOutOfRange])
    simp [meshOutOfRange, baseVertices] at this

/-! ## Sums of vertex positions under rigid maps -/

theorem foldl_pos_shift (l : List Vertex) (a u : Vec3) :
    l.foldl (fun acc w => acc + w.position) (a + u) =
      l.foldl (fun acc w => acc + w.position) a + u := by
  induction l generalizing a with
  | nil => rfl
  | cons w t ih =>
    simp only [List.foldl_cons]
    rw [show a + u + w.position = a + w.position + u by ext <;> simp <;> ring]
    exact ih (a + w.position)

theorem foldl_pos_init (l : List Vertex) (a : Vec3) :
    l.foldl (fun acc w => acc + w.position) a =
      l.foldl (fun acc w => acc + w.position) 0 + a := by
  rw [show a = 0 + a by ext <;> simp]
  rw [foldl_pos_shift]
  ext <;> simp

theorem foldl_pos_map (f : Vec3 → Vec3) (l : List Vertex) (a : Vec3) :
    (l.map fun w => { w with position := f w.position }).foldl
        (fun acc w => acc + w.position) a =
      l.foldl (fun acc w => acc + f w.position) a := by
  induction l generalizing a with
  | nil => rfl
  | cons w t ih =>
    simp only [List.map_cons, List.foldl_cons]
    exact ih _

theorem foldl_pos_add_general (t : List Vertex) (a v : Vec3) :
    t.foldl (fun acc w => acc + (w.position + v)) a =
      t.foldl (fun acc w => acc + w.position) a + (t.length : ℝ) • v := by
  induction t generalizing a with
  | nil => ext <;> simp
  | cons w t ih =>
    simp only [List.foldl_cons, List.length_cons]
    rw [ih (a + (w.position + v))]
    rw [show a + (w.position + v) = a + w.position + v by ext <;> simp <;> ring]
    rw [foldl_pos_shift t (a + w.position) v]
    push_cast
    ext <;> simp <;> ring

theorem foldl_pos_rot_general (t : List Vertex) (a c0 : Vec3) (M : Mat3) :
    t.foldl (fun acc w => acc + (M.mulVec3 (w.position - c0) + c0)) a =
      a + M.mulVec3 (t.foldl (fun acc w => acc + w.position) 0 - (t.length : ℝ) • c0) +
        (t.length : ℝ) • c0 := by
  induction t generalizing a with
  | nil => ext <;> simp [Mat3.mulVec3]
  | cons w t ih =>
    simp only [List.foldl_cons, List.length_cons]
    rw [ih (a + (M.mulVec3 (w.position - c0) + c0))]
    rw [foldl_pos_init t (0 + w.position)]
    push_cast
    ext <;> simp [Mat3.mulVec3] <;> ring

theorem getCenter_of_ne_nil (vs : List Vertex) (h : vs ≠ []) :
    getCenterFromVertices vs =
      some (((vs.foldl (fun acc x => acc + x.position) 0 : Vec3)) /
        ((vs.length : ℕ) : ℝ)) := by
  cases vs with
  | nil => exact absurd rfl h
  | cons w t =>
    simp only [getCenterFromVertices, List.foldl_cons, List.length_cons, Option.some.injEq]
    rw [foldl_pos_init t (0 + w.position), foldl_pos_init t w.position]
    ext <;> simp

theorem getCenter_map_add (vs : List Vertex) (c v : Vec3)
    (h : getCenterFromVertices vs = some c) :
    getCenterFromVertices (vs.map fun w => { w with position := w.position + v }) =
      some (c + v) := by
  have hne : vs ≠ [] := by
    intro he
    rw [he] at h
    exact absurd h (by simp [getCenterFromVertices])
  have hne2 : (vs.map fun w => { w with position := w.position + v }) ≠ [] := by
    simpa using hne
  rw [getCenter_of_ne_nil vs hne] at h
  rw [getCenter_of_ne_nil _ hne2, List.length_map,
    foldl_pos_map (fun p => p + v), foldl_pos_add_general]
  simp only [Option.some.injEq] at h ⊢
  rw [← h]
  have hn : ((vs.length : ℕ) : ℝ) ≠ 0 := by
    have := List.length_pos.2 hne
    positivity
  ext <;> (simp; field_simp; ring)

theorem getCenter_map_rot (vs : List Vertex) (c0 : Vec3) (M : Mat3)
    (h : getCenterFromVertices vs = some c0) :
    getCenterFromVertices (vs.map fun w =>
      { w with position := M.mulVec3 (w.position - c0) + c0 }) = some c0 := by
  have hne : vs ≠ [] := by
    intro he
    rw [he] at h
    exact absurd h (by simp [getCenterFromVertices])
  have hne2 : (vs.map fun w => { w with position := M.mulVec3 (w.position - c0) + c0 }) ≠ [] := by
    simpa using hne
  rw [getCenter_of_ne_nil vs hne] at h
  rw [getCenter_of_ne_nil _ hne2, List.length_map,
    foldl_pos_map (fun p => M.mulVec3 (p - c0) + c0), foldl_pos_rot_general]
  simp only [Option.some.injEq] at h ⊢
  have hn : ((vs.length : ℕ) : ℝ) ≠ 0 := by
    have := List.length_pos.2 hne
    positivity
  have hsum : vs.foldl (fun acc x => acc + x.position) 0 =
      ((vs.length : ℕ) : ℝ) • c0 := by
    rw [← h]
    ext <;> (simp; field_simp)
  rw [hsum]
  ext <;> (simp [Mat3.mulVec3]; field_simp)


/-! ## Structural lemmas about the Body Frame transforms -/

theorem Vec3.sub_add_cancel (v c : Vec3) : v - c + c = v := by ext <;> simp

theorem translateBy_of_mean (p : Plane) (v : Vec3)
    (h : getCenterFromVertices p.mesh.vertices = some p.center) :
    p.translateBy v = some (p.shiftedBody v).withCanonCamera := by
  simp only [Plane.translateBy]
  rw [getCenter_map_add p.mesh.vertices p.center v h]
  rfl

theorem rotateByAxisAngle_of_mean (p : Plane) (axis : Vec3) (θ : ℝ)
    (h : getCenterFromVertices p.mesh.vertices = some p.center) :
    p.rotateByAxisAngle axis θ = some (p.rotatedBody axis θ).withCanonCamera := by
  simp only [Plane.rotateByAxisAngle]
  rw [getCenter_map_rot p.mesh.vertices p.center (Mat3.fromAxisAngle axis θ) h]
  rfl

theorem withCanonCamera_head (p : Plane) : p.withCanonCamera.head = p.head := rfl

theorem withCanonCamera_center (p : Plane) : p.withCanonCamera.center = p.center := rfl

theorem withCanonCamera_rwt (p : Plane) :
    p.withCanonCamera.right_wing_tip = p.right_wing_tip := rfl

theorem withCanonCamera_velocity (p : Plane) : p.withCanonCamera.velocity = p.velocity := rfl

theorem withCanonCamera_angular (p : Plane) :
    p.withCanonCamera.angular_velocity = p.angular_velocity := rfl

theorem withCanonCamera_mesh (p : Plane) : p.withCanonCamera.mesh = p.mesh := rfl

theorem withCanonCamera_idem (p : Plane) :
    p.withCanonCamera.withCanonCamera = p.withCanonCamera := rfl

theorem withCanonCamera_eq_self (p : Plane)
    (h : p.camera = ⟨(getCameraVectors p).1, (getCameraVectors p).2.1,
      (getCameraVectors p).2.2⟩) :
    p.withCanonCamera = p := by
  unfold Plane.withCanonCamera
  rw [← h]

theorem mulVec3_fromAxisAngle_zero (a v : Vec3) :
    (Mat3.fromAxisAngle a 0).mulVec3 v = v := by
  ext <;> simp [Mat3.fromAxisAngle, Mat3.mulVec3]

theorem shiftedBody_zero (p : Plane) : p.shiftedBody 0 = p := by
  have hf : (fun w : Vertex => { w with position := w.position + 0 }) =
      fun w : Vertex => w := by
    funext w
    cases w
    simp [Vec3.addZero]
  unfold Plane.shiftedBody
  rw [hf, List.map_id', Vec3.addZero, Vec3.addZero, Vec3.addZero]

theorem rotatedBody_zero (p : Plane) (a : Vec3) : p.rotatedBody a 0 = p := by
  have hf : (fun w : Vertex =>
      { w with position := (Mat3.fromAxisAngle a 0).mulVec3 (w.position - p.center) + p.center }) =
      fun w : Vertex => w := by
    funext w
    cases w
    simp [mulVec3_fromAxisAngle_zero, Vec3.sub_add_cancel]
  unfold Plane.rotatedBody
  rw [hf, List.map_id', mulVec3_fromAxisAngle_zero, mulVec3_fromAxisAngle_zero,
    Vec3.sub_add_cancel, Vec3.sub_add_cancel]

theorem translateBy_zero_of_mean (p : Plane)
    (h : getCenterFromVertices p.mesh.vertices = some p.center) :
    p.translateBy 0 = some p.withCanonCamera := by
  rw [translateBy_of_mean p 0 h, shiftedBody_zero]

theorem rotateByAxisAngle_zero_of_mean (p : Plane) (a : Vec3)
    (h : getCenterFromVertices p.mesh.vertices = some p.center) :
    p.rotateByAxisAngle a 0 = some p.withCanonCamera := by
  rw [rotateByAxisAngle_of_mean p a 0 h, rotatedBody_zero]

theorem rotateBy_zero_of_mean (p : Plane)
    (h : getCenterFromVertices p.mesh.vertices = some p.center) :
    p.rotateBy 0 = some p.withCanonCamera := by
  have h1 := rotateByAxisAngle_zero_of_mean p p.forward h
  have hc : getCenterFromVertices p.withCanonCamera.mesh.vertices =
      some p.withCanonCamera.center := h
  have h2 := rotateByAxisAngle_zero_of_mean p.withCanonCamera p.withCanonCamera.up hc
  have h3 := rotateByAxisAngle_zero_of_mean p.withCanonCamera p.withCanonCamera.rightAxis hc
  rw [withCanonCamera_idem] at h2 h3
  simp only [Plane.rotateBy, Vec3.zero_x, Vec3.zero_y, Vec3.zero_z, h1, h2, h3]


/-! ## Frame lemmas: what the transforms do and do not touch -/

theorem translateBy_fields (p : Plane) (v : Vec3) (p1 : Plane)
    (h : p.translateBy v = some p1) :
    p1.velocity = p.velocity ∧ p1.angular_velocity = p.angular_velocity ∧
      p1.acceleration = p.acceleration ∧ p1.mesh.indices = p.mesh.indices ∧
      p1.mesh.texture = p.mesh.texture ∧
      p1.mesh.vertices.map Vertex.uv = p.mesh.vertices.map Vertex.uv ∧
      p1.mesh.vertices.map Vertex.color = p.mesh.vertices.map Vertex.color := by
  simp only [Plane.translateBy] at h
  rcases heq : getCenterFromVertices
      (p.mesh.vertices.map fun w => { w with position := w.position + v }) with _ | c <;>
    rw [heq] at h
  · cases h
  · cases h
    refine ⟨rfl, rfl, rfl, rfl, rfl, ?_, ?_⟩ <;>
      simp [List.map_map, Function.comp]

theorem rotateByAxisAngle_fields (p : Plane) (axis : Vec3) (θ : ℝ) (p1 : Plane)
    (h : p.rotateByAxisAngle axis θ = some p1) :
    p1.velocity = p.velocity ∧ p1.angular_velocity = p.angular_velocity ∧
      p1.acceleration = p.acceleration ∧ p1.mesh.indices = p.mesh.indices ∧
      p1.mesh.texture = p.mesh.texture ∧
      p1.mesh.vertices.map Vertex.uv = p.mesh.vertices.map Vertex.uv ∧
      p1.mesh.vertices.map Vertex.color = p.mesh.vertices.map Vertex.color := by
  simp only [Plane.rotateByAxisAngle] at h
  rcases heq : getCenterFromVertices (p.mesh.vertices.map fun w =>
      { w with position :=
          (Mat3.fromAxisAngle axis θ).mulVec3 (w.position - p.center) + p.center })
    with _ | c <;> rw [heq] at h
  · cases h
  · cases h
    refine ⟨rfl, rfl, rfl, rfl, rfl, ?_, ?_⟩ <;>
      simp [List.map_map, Function.comp]

theorem rotateBy_fields (p : Plane) (r : Vec3) (p1 : Plane)
    (h : p.rotateBy r = some p1) :
    p1.velocity = p.velocity ∧ p1.angular_velocity = p.angular_velocity ∧
      p1.acceleration = p.acceleration ∧ p1.mesh.indices = p.mesh.indices ∧
      p1.mesh.texture = p.mesh.texture := by
  simp only [Plane.rotateBy] at h
  rcases e1 : p.rotateByAxisAngle p.forward r.x with _ | q1
  · rw [e1] at h
    exact absurd h (by simp)
  simp only [e1] at h
  rcases e2 : q1.rotateByAxisAngle q1.up r.y with _ | q2
  · rw [e2] at h
    exact absurd h (by simp)
  simp only [e2] at h
  obtain ⟨a1, b1, c1, d1, t1, -, -⟩ := rotateByAxisAngle_fields _ _ _ _ e1
  obtain ⟨a2, b2, c2, d2, t2, -, -⟩ := rotateByAxisAngle_fields _ _ _ _ e2
  obtain ⟨a3, b3, c3, d3, t3, -, -⟩ := rotateByAxisAngle_fields _ _ _ _ h
  exact ⟨a3.trans (a2.trans a1), b3.trans (b2.trans b1), c3.trans (c2.trans c1),
    d3.trans (d2.trans d1), t3.trans (t2.trans t1)⟩

theorem translateBy_camera (p : Plane) (v : Vec3) (p1 : Plane)
    (h : p.translateBy v = some p1) : p1.cameraRigidOffset := by
  simp only [Plane.translateBy] at h
  rcases heq : getCenterFromVertices
      (p.mesh.vertices.map fun w => { w with position := w.position + v }) with _ | c <;>
    rw [heq] at h
  · cases h
  · cases h
    exact ⟨rfl, rfl, rfl⟩

theorem rotateByAxisAngle_camera (p : Plane) (axis : Vec3) (θ : ℝ) (p1 : Plane)
    (h : p.rotateByAxisAngle axis θ = some p1) : p1.cameraRigidOffset := by
  simp only [Plane.rotateByAxisAngle] at h
  rcases heq : getCenterFromVertices (p.mesh.vertices.map fun w =>
      { w with position :=
          (Mat3.fromAxisAngle axis θ).mulVec3 (w.position - p.center) + p.center })
    with _ | c <;> rw [heq] at h
  · cases h
  · cases h
    exact ⟨rfl, rfl, rfl⟩

theorem new_camera (m : Mesh) (p : Plane) (h : Plane.new m = some p) :
    p.camera.position = p.up * (2 : ℝ) + p.forward * (-2 : ℝ) ∧
      p.camera.target = p.forward * (3 : ℝ) ∧ p.camera.up = p.up := by
  simp only [Plane.new] at h
  rcases e1 : getHeadFromVertices m.vertices with _ | hd <;> rw [e1] at h
  · cases h
  rcases e2 : getCenterFromVertices m.vertices with _ | c <;> rw [e2] at h
  · cases h
  rcases e3 : getRightWingTipFromVertices m.vertices with _ | rwt <;> rw [e3] at h
  · cases h
  cases h
  exact ⟨rfl, rfl, rfl⟩


/-! ## Rotation and normalization algebra -/

theorem mulVec3_sub (M : Mat3) (x y : Vec3) :
    M.mulVec3 x - M.mulVec3 y = M.mulVec3 (x - y) := by
  ext <;> simp [Mat3.mulVec3] <;> ring

theorem mulVec3_mulR (M : Mat3) (x : Vec3) (c : ℝ) :
    M.mulVec3 (x * c) = M.mulVec3 x * c := by
  ext <;> simp [Mat3.mulVec3] <;> ring

theorem mulVec3_fromAxisAngle_dot (a : Vec3) (ha : a.dot a = 1) (θ : ℝ) (x y : Vec3) :
    ((Mat3.fromAxisAngle a θ).mulVec3 x).dot ((Mat3.fromAxisAngle a θ).mulVec3 y) =
      x.dot y := by
  have hsc : Real.sin θ ^ 2 + Real.cos θ ^ 2 = 1 := Real.sin_sq_add_cos_sq θ
  unfold Vec3.dot at ha ⊢
  simp only [Mat3.fromAxisAngle, Mat3.mulVec3, Vec3.add_x, Vec3.add_y, Vec3.add_z,
    Vec3.mulR_x, Vec3.mulR_y, Vec3.mulR_z, Vec3.mk_x, Vec3.mk_y, Vec3.mk_z]
  linear_combination
    (Real.sin θ ^ 2 * (x.x * y.x + x.y * y.y + x.z * y.z) +
      (1 - Real.cos θ) ^ 2 * ((a.x * x.x + a.y * x.y + a.z * x.z) *
        (a.x * y.x + a.y * y.y + a.z * y.z))) * ha +
    ((x.x * y.x + x.y * y.y + x.z * y.z) -
      (a.x * x.x + a.y * x.y + a.z * x.z) * (a.x * y.x + a.y * y.y + a.z * y.z)) * hsc

theorem Vec3.length_congr (u v : Vec3) (h : u.dot u = v.dot v) : u.length = v.length := by
  unfold Vec3.length
  rw [h]

theorem Vec3.cross_dot_left (a b : Vec3) : (a.cross b).dot a = 0 := by
  simp [Vec3.cross, Vec3.dot]
  ring

theorem Vec3.cross_dot_right (a b : Vec3) : (a.cross b).dot b = 0 := by
  simp [Vec3.cross, Vec3.dot]
  ring

theorem Vec3.cross_lagrange (a b : Vec3) :
    (a.cross b).dot (a.cross b) = (a.dot a) * (b.dot b) - (a.dot b) ^ 2 := by
  simp [Vec3.cross, Vec3.dot]
  ring

theorem Vec3.dot_mulR_both (u v : Vec3) (s t : ℝ) :
    (u * s).dot (v * t) = u.dot v * (s * t) := by
  simp [Vec3.dot]
  ring

theorem Vec3.normalize_dot_zero (u v : Vec3) (h : u.dot v = 0) :
    u.normalize.dot v.normalize = 0 := by
  unfold Vec3.normalize
  rw [Vec3.dot_mulR_both, h, zero_mul]

theorem Vec3.normalize_length_one (v : Vec3) (h : v ≠ 0) : v.normalize.length = 1 := by
  have hd := Vec3.dot_self_pos v h
  rw [Vec3.length_eq_one_iff_dot]
  unfold Vec3.normalize Vec3.lengthRecip
  rw [Vec3.dot_mulR_both]
  unfold Vec3.length
  rw [div_mul_div_comm, one_mul, Real.mul_self_sqrt hd.le, mul_one_div, div_self hd.ne']


/-! ## Evaluation helpers for the base fixture -/

theorem normalize_eval (v : Vec3) (n : ℝ) (hn : 0 < n) (h : v.dot v = n * n) :
    v.normalize = v * (1 / n) := by
  unfold Vec3.normalize Vec3.lengthRecip Vec3.length
  rw [h, Real.sqrt_mul_self hn.le]

theorem up_forward_base (p : Plane) (hh : p.head - p.center = ⟨4, 0, 0⟩)
    (hr : p.right_wing_tip - p.center = ⟨-2, 0, 3⟩) :
    p.up = ⟨0, 1, 0⟩ ∧ p.forward = ⟨1, 0, 0⟩ := by
  constructor
  · unfold Plane.up
    rw [hh, hr]
    rw [show Vec3.cross ⟨-2, 0, 3⟩ ⟨4, 0, 0⟩ = ⟨0, 12, 0⟩ by ext <;> norm_num [Vec3.cross]]
    rw [normalize_eval ⟨0, 12, 0⟩ 12 (by norm_num) (by norm_num [Vec3.dot])]
    ext <;> norm_num
  · unfold Plane.forward
    rw [hh]
    rw [normalize_eval ⟨4, 0, 0⟩ 4 (by norm_num) (by norm_num [Vec3.dot])]
    ext <;> norm_num

theorem getCenter_basePlane :
    getCenterFromVertices basePlane.mesh.vertices = some basePlane.center := by
  norm_num [basePlane, baseVertices, mkVertex, getCenterFromVertices, Vec3.ext_iff]

theorem canon_basePlane : basePlane.withCanonCamera = basePlane := by
  apply withCanonCamera_eq_self
  obtain ⟨hu, hf⟩ := up_forward_base basePlane (by ext <;> norm_num [basePlane])
    (by ext <;> norm_num [basePlane])
  show basePlane.camera = ⟨basePlane.center + basePlane.up * (2 : ℝ) +
    basePlane.forward * (-2 : ℝ), basePlane.center + basePlane.forward * (3 : ℝ),
    basePlane.up⟩
  rw [hu, hf]
  norm_num [basePlane, Camera.mk.injEq, Vec3.ext_iff]

theorem translateBy_basePlane :
    basePlane.translateBy ⟨1, 0, 0⟩ = some basePlaneShifted := by
  rw [translateBy_of_mean basePlane ⟨1, 0, 0⟩ getCenter_basePlane]
  have hsb : basePlane.shiftedBody ⟨1, 0, 0⟩ =
      { basePlaneShifted with camera := basePlane.camera } := by
    norm_num [Plane.shiftedBody, basePlane, basePlaneShifted, baseVertices, mkVertex,
      Plane.mk.injEq, Mesh.mk.injEq, Vec3.ext_iff]
  rw [hsb]
  obtain ⟨hu, hf⟩ := up_forward_base { basePlaneShifted with camera := basePlane.camera }
    (by ext <;> norm_num [basePlaneShifted]) (by ext <;> norm_num [basePlaneShifted])
  unfold Plane.withCanonCamera getCameraVectors
  rw [hu, hf]
  norm_num [basePlaneShifted, Plane.mk.injEq, Camera.mk.injEq, Vec3.ext_iff]

theorem rotateByAxisAngle_basePlane_zero (a : Vec3) :
    basePlane.rotateByAxisAngle a 0 = some basePlane := by
  rw [rotateByAxisAngle_zero_of_mean basePlane a getCenter_basePlane, canon_basePlane]

theorem new_meshM4 : Plane.new meshM4 = some builtPlaneM4 := by
  rw [show meshM4 = (⟨baseVertices, [0, 1, 2], none⟩ : Mesh) from rfl, new_baseVertices]
  rfl

/-! ## Claim C4: the chase camera offset -/

/-- C4 (amended): after every `translate_by` and every
`rotate_by_axis_angle` the camera satisfies the rigid offset
`position = center + up*2 + forward*(-2)`, `target = center + forward*3`,
`camera.up = up` (constants h1 = 2, h2 = 2, h3 = 3); at construction,
however, `Plane::new` omits the center term - the built camera satisfies
`position = up*2 + forward*(-2)` and `target = forward*3`, which agrees
with the offset invariant only when `center = 0`. -/
theorem camera_rigid_offset_after_transforms (p : Plane) (v axis : Vec3) (θ : ℝ)
    (m : Mesh) (p1 p2 p3 : Plane)
    (h1 : p.translateBy v = some p1) (h2 : p.rotateByAxisAngle axis θ = some p2)
    (h3 : Plane.new m = some p3) :
    p1.cameraRigidOffset ∧ p2.cameraRigidOffset ∧
      (p3.camera.position = p3.up * (2 : ℝ) + p3.forward * (-2 : ℝ) ∧
        p3.camera.target = p3.forward * (3 : ℝ) ∧ p3.camera.up = p3.up) :=
  ⟨translateBy_camera p v p1 h1, rotateByAxisAngle_camera p axis θ p2 h2, new_camera m p3 h3⟩

/-- Witness for C4 at concrete inputs. -/
theorem camera_rigid_offset_after_transforms_witness :
    basePlaneShifted.cameraRigidOffset ∧ basePlane.cameraRigidOffset ∧
      (builtPlaneM4.camera.position =
          builtPlaneM4.up * (2 : ℝ) + builtPlaneM4.forward * (-2 : ℝ) ∧
        builtPlaneM4.camera.target = builtPlaneM4.forward * (3 : ℝ) ∧
        builtPlaneM4.camera.up = builtPlaneM4.up) :=
  camera_rigid_offset_after_transforms basePlane ⟨1, 0, 0⟩ ⟨1, 0, 0⟩ 0 meshM4
    basePlaneShifted basePlane builtPlaneM4 translateBy_basePlane
    (rotateByAxisAngle_basePlane_zero ⟨1, 0, 0⟩) new_meshM4

/-- C4 counterexample: for a mesh with center `(0,7,0)` the camera built by
`Plane::new` has `position.y = 2`, while the claimed invariant
`center + up*2 + forward*(-2)` has `y = 9`: the claim fails at
construction. -/
theorem camera_offset_missing_center_at_construction :
    Plane.new meshM4 = some builtPlaneM4 ∧
    builtPlaneM4.camera.position.y = 2 ∧
    (builtPlaneM4.center + builtPlaneM4.up * (2 : ℝ) +
      builtPlaneM4.forward * (-2 : ℝ)).y = 9 ∧
    builtPlaneM4.camera.position ≠
      builtPlaneM4.center + builtPlaneM4.up * (2 : ℝ) +
        builtPlaneM4.forward * (-2 : ℝ) := by
  obtain ⟨hu, hf⟩ := up_forward_base builtPlaneM4
    (by ext <;> norm_num [builtPlaneM4]) (by ext <;> norm_num [builtPlaneM4])
  refine ⟨new_meshM4, by norm_num [builtPlaneM4], ?_, ?_⟩
  · rw [hu, hf]
    norm_num [builtPlaneM4]
  · intro hcontra
    have hy := congrArg Vec3.y hcontra
    rw [hu, hf] at hy
    norm_num [builtPlaneM4] at hy

/-! ## Claim C10: transforms mutate only geometric state -/

/-- C10: `translate_by` and `rotate_by_axis_angle` leave the mesh's index
list and texture, every vertex's uv coordinate and color, and the body's
velocity, angular_velocity and acceleration unchanged. -/
theorem transforms_touch_only_geometry (p : Plane) (v axis : Vec3) (θ : ℝ) (p1 p2 : Plane)
    (h1 : p.translateBy v = some p1) (h2 : p.rotateByAxisAngle axis θ = some p2) :
    (p1.mesh.indices = p.mesh.indices ∧ p1.mesh.texture = p.mesh.texture ∧
      p1.mesh.vertices.map Vertex.uv = p.mesh.vertices.map Vertex.uv ∧
      p1.mesh.vertices.map Vertex.color = p.mesh.vertices.map Vertex.color ∧
      p1.velocity = p.velocity ∧ p1.angular_velocity = p.angular_velocity ∧
      p1.acceleration = p.acceleration) ∧
    (p2.mesh.indices = p.mesh.indices ∧ p2.mesh.texture = p.mesh.texture ∧
      p2.mesh.vertices.map Vertex.uv = p.mesh.vertices.map Vertex.uv ∧
      p2.mesh.vertices.map Vertex.color = p.mesh.vertices.map Vertex.color ∧
      p2.velocity = p.velocity ∧ p2.angular_velocity = p.angular_velocity ∧
      p2.acceleration = p.acceleration) := by
  obtain ⟨a1, b1, c1, d1, t1, u1, k1⟩ := translateBy_fields p v p1 h1
  obtain ⟨a2, b2, c2, d2, t2, u2, k2⟩ := rotateByAxisAngle_fields p axis θ p2 h2
  exact ⟨⟨d1, t1, u1, k1, a1, b1, c1⟩, ⟨d2, t2, u2, k2, a2, b2, c2⟩⟩

/-- Witness for C10 at concrete inputs. -/
theorem transforms_touch_only_geometry_witness :
    (basePlaneShifted.mesh.indices = basePlane.mesh.indices ∧
      basePlaneShifted.mesh.texture = basePlane.mesh.texture ∧
      basePlaneShifted.mesh.vertices.map Vertex.uv =
        basePlane.mesh.vertices.map Vertex.uv ∧
      basePlaneShifted.mesh.vertices.map Vertex.color =
        basePlane.mesh.vertices.map Vertex.color ∧
      basePlaneShifted.velocity = basePlane.velocity ∧
      basePlaneShifted.angular_velocity = basePlane.angular_velocity ∧
      basePlaneShifted.acceleration = basePlane.acceleration) ∧
    (basePlane.mesh.indices = basePlane.mesh.indices ∧
      basePlane.mesh.texture = basePlane.mesh.texture ∧
      basePlane.mesh.vertices.map Vertex.uv = basePlane.mesh.vertices.map Vertex.uv ∧
      basePlane.mesh.vertices.map Vertex.color =
        basePlane.mesh.vertices.map Vertex.color ∧
      basePlane.velocity = basePlane.velocity ∧
      basePlane.angular_velocity = basePlane.angular_velocity ∧
      basePlane.acceleration = basePlane.acceleration) :=
  transforms_touch_only_geometry basePlane ⟨1, 0, 0⟩ ⟨1, 0, 0⟩ 0
    basePlaneShifted basePlane translateBy_basePlane
    (rotateByAxisAngle_basePlane_zero ⟨1, 0, 0⟩)


/-! ## Claim C6: rigidity of the Body Frame transforms -/

theorem mulVec3_zero (M : Mat3) : M.mulVec3 0 = 0 := by
  ext <;> simp [Mat3.mulVec3]

theorem trackedPoints_shifted (p : Plane) (v : Vec3) :
    ((p.shiftedBody v).withCanonCamera).trackedPoints =
      p.trackedPoints.map (fun x => x + v) := by
  simp only [Plane.trackedPoints, Plane.withCanonCamera, Plane.shiftedBody,
    List.map_map, List.map_append, List.map_cons, List.map_nil]
  rfl

theorem trackedPoints_rotated (p : Plane) (axis : Vec3) (θ : ℝ) :
    ((p.rotatedBody axis θ).withCanonCamera).trackedPoints =
      p.trackedPoints.map (fun x =>
        (Mat3.fromAxisAngle axis θ).mulVec3 (x - p.center) + p.center) := by
  simp only [Plane.trackedPoints, Plane.withCanonCamera, Plane.rotatedBody,
    List.map_map, List.map_append, List.map_cons, List.map_nil]
  have hc : (Mat3.fromAxisAngle axis θ).mulVec3 (p.center - p.center) + p.center =
      p.center := by
    rw [show p.center - p.center = (0 : Vec3) by ext <;> simp, mulVec3_zero]
    ext <;> simp
  rw [hc]
  rfl

theorem pdist_translate (a b v : Vec3) : pdist (a + v) (b + v) = pdist a b := by
  unfold pdist
  rw [show a + v - (b + v) = a - b by ext <;> simp]

theorem pdist_rotate (a b c0 axis : Vec3) (θ : ℝ) (haxis : axis.dot axis = 1) :
    pdist ((Mat3.fromAxisAngle axis θ).mulVec3 (a - c0) + c0)
        ((Mat3.fromAxisAngle axis θ).mulVec3 (b - c0) + c0) = pdist a b := by
  unfold pdist
  rw [show (Mat3.fromAxisAngle axis θ).mulVec3 (a - c0) + c0 -
      ((Mat3.fromAxisAngle axis θ).mulVec3 (b - c0) + c0) =
      (Mat3.fromAxisAngle axis θ).mulVec3 (a - c0) -
        (Mat3.fromAxisAngle axis θ).mulVec3 (b - c0) by ext <;> simp]
  rw [mulVec3_sub, show a - c0 - (b - c0) = a - b by ext <;> simp]
  exact Vec3.length_congr _ _ (mulVec3_fromAxisAngle_dot axis haxis θ (a - b) (a - b))

/-- C6: `translate_by` and `rotate_by_axis_angle` (about a unit axis, for a
body whose center is the vertex mean, as construction establishes) preserve
every pairwise distance between points of
{vertex positions, head, center, right_wing_tip}. -/
theorem rigid_transforms_preserve_pairwise_distances (p : Plane) (v axis : Vec3)
    (θ : ℝ) (p1 p2 : Plane)
    (hmean : getCenterFromVertices p.mesh.vertices = some p.center)
    (haxis : axis.length = 1)
    (h1 : p.translateBy v = some p1)
    (h2 : p.rotateByAxisAngle axis θ = some p2) :
    (∀ i j a b c d, p.trackedPoints.get? i = some a → p.trackedPoints.get? j = some b →
      p1.trackedPoints.get? i = some c → p1.trackedPoints.get? j = some d →
      pdist c d = pdist a b) ∧
    (∀ i j a b c d, p.trackedPoints.get? i = some a → p.trackedPoints.get? j = some b →
      p2.trackedPoints.get? i = some c → p2.trackedPoints.get? j = some d →
      pdist c d = pdist a b) := by
  have hdot : axis.dot axis = 1 := (Vec3.length_eq_one_iff_dot axis).1 haxis
  rw [translateBy_of_mean p v hmean] at h1
  rw [rotateByAxisAngle_of_mean p axis θ hmean] at h2
  have e1 : p1 = (p.shiftedBody v).withCanonCamera := (Option.some.inj h1).symm
  have e2 : p2 = (p.rotatedBody axis θ).withCanonCamera := (Option.some.inj h2).symm
  subst e1
  subst e2
  constructor
  · intro i j a b c d ha hb hc hd
    rw [trackedPoints_shifted, List.get?_map, ha] at hc
    rw [trackedPoints_shifted, List.get?_map, hb] at hd
    simp only [Option.map_some', Option.some.injEq] at hc hd
    rw [← hc, ← hd, pdist_translate]
  · intro i j a b c d ha hb hc hd
    rw [trackedPoints_rotated, List.get?_map, ha] at hc
    rw [trackedPoints_rotated, List.get?_map, hb] at hd
    simp only [Option.map_some', Option.some.injEq] at hc hd
    rw [← hc, ← hd, pdist_rotate a b p.center axis θ hdot]

/-- Witness for C6 at concrete inputs. -/
theorem rigid_transforms_preserve_pairwise_distances_witness :
    (∀ i j a b c d, basePlane.trackedPoints.get? i = some a →
      basePlane.trackedPoints.get? j = some b →
      basePlaneShifted.trackedPoints.get? i = some c →
      basePlaneShifted.trackedPoints.get? j = some d →
      pdist c d = pdist a b) ∧
    (∀ i j a b c d, basePlane.trackedPoints.get? i = some a →
      basePlane.trackedPoints.get? j = some b →
      basePlane.trackedPoints.get? i = some c →
      basePlane.trackedPoints.get? j = some d →
      pdist c d = pdist a b) :=
  rigid_transforms_preserve_pairwise_distances basePlane ⟨1, 0, 0⟩ ⟨1, 0, 0⟩ 0
    basePlaneShifted basePlane getCenter_basePlane
    (by rw [show (⟨1, 0, 0⟩ : Vec3).length = Real.sqrt 1 by norm_num [Vec3.length, Vec3.dot]]
        exact Real.sqrt_one)
    translateBy_basePlane (rotateByAxisAngle_basePlane_zero ⟨1, 0, 0⟩)


/-! ## Claim C5: orthonormality of the derived basis -/

theorem Vec3.dot_comm (a b : Vec3) : a.dot b = b.dot a := by
  simp [Vec3.dot]
  ring

theorem normalize_dot_self_one (v : Vec3) (h : v ≠ 0) :
    v.normalize.dot v.normalize = 1 :=
  (Vec3.length_eq_one_iff_dot _).1 (Vec3.normalize_length_one v h)

theorem cross_ne_zero_of_ortho (u w : Vec3) (hu : u ≠ 0) (hw : w ≠ 0)
    (hdot : u.dot w = 0) : u.cross w ≠ 0 := by
  intro hc
  have hl := Vec3.cross_lagrange u w
  rw [hc, hdot] at hl
  have h0 : (0 : Vec3).dot 0 = 0 := by simp [Vec3.dot]
  rw [h0] at hl
  have hu2 := Vec3.dot_self_pos u hu
  have hw2 := Vec3.dot_self_pos w hw
  nlinarith

theorem ortho_of_markers (p : Plane)
    (hvh : p.head - p.center ≠ 0) (hvr : p.right_wing_tip - p.center ≠ 0)
    (hdot : (p.head - p.center).dot (p.right_wing_tip - p.center) = 0) :
    p.orthonormalBasis := by
  have hcross : (p.right_wing_tip - p.center).cross (p.head - p.center) ≠ 0 :=
    cross_ne_zero_of_ortho _ _ hvr hvh (by rw [Vec3.dot_comm]; exact hdot)
  exact ⟨Vec3.normalize_dot_zero _ _ hdot,
    Vec3.normalize_dot_zero _ _ (Vec3.cross_dot_right _ _),
    Vec3.normalize_dot_zero _ _ (Vec3.cross_dot_left _ _),
    Vec3.normalize_length_one _ hvh,
    Vec3.normalize_length_one _ hvr,
    Vec3.normalize_length_one _ hcross⟩

theorem J_translate (p : Plane) (v : Vec3) (p1 : Plane)
    (hmean : getCenterFromVertices p.mesh.vertices = some p.center)
    (hvh : p.head - p.center ≠ 0) (hvr : p.right_wing_tip - p.center ≠ 0)
    (hdot : (p.head - p.center).dot (p.right_wing_tip - p.center) = 0)
    (h : p.translateBy v = some p1) :
    getCenterFromVertices p1.mesh.vertices = some p1.center ∧
      p1.head - p1.center ≠ 0 ∧ p1.right_wing_tip - p1.center ≠ 0 ∧
      (p1.head - p1.center).dot (p1.right_wing_tip - p1.center) = 0 := by
  rw [translateBy_of_mean p v hmean] at h
  obtain rfl : p1 = (p.shiftedBody v).withCanonCamera := (Option.some.inj h).symm
  have hh : (p.shiftedBody v).withCanonCamera.head -
      (p.shiftedBody v).withCanonCamera.center = p.head - p.center := by
    show p.head + v - (p.center + v) = p.head - p.center
    ext <;> simp
  have hr : (p.shiftedBody v).withCanonCamera.right_wing_tip -
      (p.shiftedBody v).withCanonCamera.center = p.right_wing_tip - p.center := by
    show p.right_wing_tip + v - (p.center + v) = p.right_wing_tip - p.center
    ext <;> simp
  refine ⟨?_, ?_, ?_, ?_⟩
  · show getCenterFromVertices
        (p.mesh.vertices.map fun w => { w with position := w.position + v }) =
      some (p.center + v)
    exact getCenter_map_add p.mesh.vertices p.center v hmean
  · rw [hh]
    exact hvh
  · rw [hr]
    exact hvr
  · rw [hh, hr]
    exact hdot

theorem J_rotAA (p : Plane) (axis : Vec3) (θ : ℝ) (p2 : Plane)
    (hmean : getCenterFromVertices p.mesh.vertices = some p.center)
    (hvh : p.head - p.center ≠ 0) (hvr : p.right_wing_tip - p.center ≠ 0)
    (hdot : (p.head - p.center).dot (p.right_wing_tip - p.center) = 0)
    (hax : axis.dot axis = 1)
    (h : p.rotateByAxisAngle axis θ = some p2) :
    getCenterFromVertices p2.mesh.vertices = some p2.center ∧
      p2.head - p2.center ≠ 0 ∧ p2.right_wing_tip - p2.center ≠ 0 ∧
      (p2.head - p2.center).dot (p2.right_wing_tip - p2.center) = 0 := by
  rw [rotateByAxisAngle_of_mean p axis θ hmean] at h
  obtain rfl : p2 = (p.rotatedBody axis θ).withCanonCamera := (Option.some.inj h).symm
  have hh : (p.rotatedBody axis θ).withCanonCamera.head -
      (p.rotatedBody axis θ).withCanonCamera.center =
      (Mat3.fromAxisAngle axis θ).mulVec3 (p.head - p.center) := by
    show (Mat3.fromAxisAngle axis θ).mulVec3 (p.head - p.center) + p.center - p.center = _
    ext <;> simp
  have hr : (p.rotatedBody axis θ).withCanonCamera.right_wing_tip -
      (p.rotatedBody axis θ).withCanonCamera.center =
      (Mat3.fromAxisAngle axis θ).mulVec3 (p.right_wing_tip - p.center) := by
    show (Mat3.fromAxisAngle axis θ).mulVec3 (p.right_wing_tip - p.center) + p.center -
      p.center = _
    ext <;> simp
  refine ⟨?_, ?_, ?_, ?_⟩
  · show getCenterFromVertices (p.mesh.vertices.map fun w =>
        { w with position :=
            (Mat3.fromAxisAngle axis θ).mulVec3 (w.position - p.center) + p.center }) =
      some p.center
    exact getCenter_map_rot p.mesh.vertices p.center _ hmean
  · rw [hh]
    intro hz
    have hzero : (p.head - p.center).dot (p.head - p.center) = 0 := by
      rw [← mulVec3_fromAxisAngle_dot axis hax θ, hz]
      simp [Vec3.dot]
    exact hvh ((Vec3.dot_self_eq_zero_iff _).1 hzero)
  · rw [hr]
    intro hz
    have hzero : (p.right_wing_tip - p.center).dot (p.right_wing_tip - p.center) = 0 := by
      rw [← mulVec3_fromAxisAngle_dot axis hax θ, hz]
      simp [Vec3.dot]
    exact hvr ((Vec3.dot_self_eq_zero_iff _).1 hzero)
  · rw [hh, hr, mulVec3_fromAxisAngle_dot axis hax θ]
    exact hdot

theorem J_rotEuler (p : Plane) (r : Vec3) (pp : Plane)
    (hmean : getCenterFromVertices p.mesh.vertices = some p.center)
    (hvh : p.head - p.center ≠ 0) (hvr : p.right_wing_tip - p.center ≠ 0)
    (hdot : (p.head - p.center).dot (p.right_wing_tip - p.center) = 0)
    (h : p.rotateBy r = some pp) :
    getCenterFromVertices pp.mesh.vertices = some pp.center ∧
      pp.head - pp.center ≠ 0 ∧ pp.right_wing_tip - pp.center ≠ 0 ∧
      (pp.head - pp.center).dot (pp.right_wing_tip - pp.center) = 0 := by
  simp only [Plane.rotateBy] at h
  rcases e1 : p.rotateByAxisAngle p.forward r.x with _ | q1
  · rw [e1] at h
    exact absurd h (by simp)
  simp only [e1] at h
  have hax1 : p.forward.dot p.forward = 1 := normalize_dot_self_one _ hvh
  obtain ⟨m1, a1, b1, c1⟩ := J_rotAA p p.forward r.x q1 hmean hvh hvr hdot hax1 e1
  rcases e2 : q1.rotateByAxisAngle q1.up r.y with _ | q2
  · rw [e2] at h
    exact absurd h (by simp)
  simp only [e2] at h
  have hcross1 : (q1.right_wing_tip - q1.center).cross (q1.head - q1.center) ≠ 0 :=
    cross_ne_zero_of_ortho _ _ b1 a1 (by rw [Vec3.dot_comm]; exact c1)
  have hax2 : q1.up.dot q1.up = 1 := normalize_dot_self_one _ hcross1
  obtain ⟨m2, a2, b2, c2⟩ := J_rotAA q1 q1.up r.y q2 m1 a1 b1 c1 hax2 e2
  have hax3 : q2.rightAxis.dot q2.rightAxis = 1 := normalize_dot_self_one _ b2
  exact J_rotAA q2 q2.rightAxis r.z pp m2 a2 b2 c2 hax3 h

theorem applyOps_J (ops : List BodyOp) : ∀ (p pp : Plane),
    getCenterFromVertices p.mesh.vertices = some p.center →
    p.head - p.center ≠ 0 → p.right_wing_tip - p.center ≠ 0 →
    (p.head - p.center).dot (p.right_wing_tip - p.center) = 0 →
    (∀ op ∈ ops, OpWF op) → applyOps p ops = some pp →
    getCenterFromVertices pp.mesh.vertices = some pp.center ∧
      pp.head - pp.center ≠ 0 ∧ pp.right_wing_tip - pp.center ≠ 0 ∧
      (pp.head - pp.center).dot (pp.right_wing_tip - pp.center) = 0 := by
  induction ops with
  | nil =>
    intro p pp h1 h2 h3 h4 hwf happ
    simp only [applyOps, Option.some.injEq] at happ
    rw [← happ]
    exact ⟨h1, h2, h3, h4⟩
  | cons op rest ih =>
    intro p pp h1 h2 h3 h4 hwf happ
    simp only [applyOps] at happ
    rcases e : applyOp p op with _ | q
    · rw [e] at happ
      exact absurd happ (by simp)
    simp only [e] at happ
    have hq : getCenterFromVertices q.mesh.vertices = some q.center ∧
        q.head - q.center ≠ 0 ∧ q.right_wing_tip - q.center ≠ 0 ∧
        (q.head - q.center).dot (q.right_wing_tip - q.center) = 0 := by
      cases op with
      | translate v =>
        exact J_translate p v q h1 h2 h3 h4 e
      | rotAxisAngle axis θ =>
        have hlen : axis.length = 1 := by
          have := hwf _ (List.mem_cons_self _ _)
          simpa only [OpWF] using this
        exact J_rotAA p axis θ q h1 h2 h3 h4
          ((Vec3.length_eq_one_iff_dot axis).1 hlen) e
      | rotEuler rv =>
        exact J_rotEuler p rv q h1 h2 h3 h4 e
    obtain ⟨k1, k2, k3, k4⟩ := hq
    exact ih q pp k1 k2 k3 k4 (fun o ho => hwf o (List.mem_cons_of_mem _ ho)) happ

/-- C5 (amended): for a body whose center is the vertex mean and whose
marker offsets are nonzero and mutually orthogonal at the start, every
sequence of `translate_by`, `rotate_by_axis_angle` (unit axis) and
`rotate_by` calls keeps the derived `forward`, `up`, `right` an orthonormal
basis.  Without the initial orthogonality of the marker offsets the claim
fails (see the counterexample): the code never enforces
`forward . right = 0`, it only preserves it. -/
theorem basis_orthonormal_preserved_when_initially_orthogonal
    (p pp : Plane) (ops : List BodyOp)
    (hmean : getCenterFromVertices p.mesh.vertices = some p.center)
    (hvh : p.head - p.center ≠ 0) (hvr : p.right_wing_tip - p.center ≠ 0)
    (hdot : (p.head - p.center).dot (p.right_wing_tip - p.center) = 0)
    (hwf : ∀ op ∈ ops, OpWF op) (happ : applyOps p ops = some pp) :
    pp.orthonormalBasis := by
  obtain ⟨-, k2, k3, k4⟩ := applyOps_J ops p pp hmean hvh hvr hdot hwf happ
  exact ortho_of_markers pp k2 k3 k4


theorem up_forward_skew (p : Plane) (hh : p.head - p.center = ⟨1, 0, 0⟩)
    (hr : p.right_wing_tip - p.center = ⟨3, 4, 0⟩) :
    p.up = ⟨0, 0, -1⟩ ∧ p.forward = ⟨1, 0, 0⟩ := by
  constructor
  · unfold Plane.up
    rw [hh, hr]
    rw [show Vec3.cross ⟨3, 4, 0⟩ ⟨1, 0, 0⟩ = ⟨0, 0, -4⟩ by ext <;> norm_num [Vec3.cross]]
    rw [normalize_eval ⟨0, 0, -4⟩ 4 (by norm_num) (by norm_num [Vec3.dot])]
    ext <;> norm_num
  · unfold Plane.forward
    rw [hh]
    rw [normalize_eval ⟨1, 0, 0⟩ 1 (by norm_num) (by norm_num [Vec3.dot])]
    ext <;> norm_num

theorem getCenter_skewPlane :
    getCenterFromVertices skewPlane.mesh.vertices = some skewPlane.center := by
  norm_num [skewPlane, mkVertex, getCenterFromVertices, Vec3.ext_iff]

theorem translateBy_skewPlane :
    skewPlane.translateBy ⟨1, 1, 1⟩ = some skewPlaneShifted := by
  rw [translateBy_of_mean skewPlane ⟨1, 1, 1⟩ getCenter_skewPlane]
  have hsb : skewPlane.shiftedBody ⟨1, 1, 1⟩ =
      { skewPlaneShifted with camera := skewPlane.camera } := by
    norm_num [Plane.shiftedBody, skewPlane, skewPlaneShifted, mkVertex,
      Plane.mk.injEq, Mesh.mk.injEq, Vec3.ext_iff]
  rw [hsb]
  obtain ⟨hu, hf⟩ := up_forward_skew { skewPlaneShifted with camera := skewPlane.camera }
    (by ext <;> norm_num [skewPlaneShifted]) (by ext <;> norm_num [skewPlaneShifted])
  unfold Plane.withCanonCamera getCameraVectors
  rw [hu, hf]
  norm_num [skewPlaneShifted, Plane.mk.injEq, Camera.mk.injEq, Vec3.ext_iff]

/-- C5 counterexample: a body whose markers are distinct from the center but
whose marker offsets are not orthogonal - after a `translate_by` call (and
already at the start) `forward . right = 3/5`, so the derived basis is not
orthonormal; the claim fails without an initial-orthogonality assumption. -/
theorem basis_not_orthogonal_for_skew_markers :
    skewPlane.head ≠ skewPlane.center ∧
    skewPlane.right_wing_tip ≠ skewPlane.center ∧
    skewPlane.translateBy ⟨1, 1, 1⟩ = some skewPlaneShifted ∧
    Vec3.dot skewPlaneShifted.forward skewPlaneShifted.rightAxis = 3 / 5 ∧
    ¬ skewPlaneShifted.orthonormalBasis := by
  have hh : skewPlaneShifted.head - skewPlaneShifted.center = ⟨1, 0, 0⟩ := by
    ext <;> norm_num [skewPlaneShifted]
  have hr : skewPlaneShifted.right_wing_tip - skewPlaneShifted.center = ⟨3, 4, 0⟩ := by
    ext <;> norm_num [skewPlaneShifted]
  have hdotv : Vec3.dot skewPlaneShifted.forward skewPlaneShifted.rightAxis = 3 / 5 := by
    unfold Plane.forward Plane.rightAxis
    rw [hh, hr]
    rw [normalize_eval ⟨1, 0, 0⟩ 1 (by norm_num) (by norm_num [Vec3.dot])]
    rw [normalize_eval ⟨3, 4, 0⟩ 5 (by norm_num) (by norm_num [Vec3.dot])]
    norm_num [Vec3.dot]
  refine ⟨?_, ?_, translateBy_skewPlane, hdotv, ?_⟩
  · intro h
    have := congrArg Vec3.x h
    norm_num [skewPlane] at this
  · intro h
    have := congrArg Vec3.x h
    norm_num [skewPlane] at this
  · intro hortho
    have h0 := hortho.1
    rw [hdotv] at h0
    norm_num at h0

theorem up_forward_ortho (p : Plane) (hh : p.head - p.center = ⟨4, 0, 0⟩)
    (hr : p.right_wing_tip - p.center = ⟨0, 0, 3⟩) :
    p.up = ⟨0, 1, 0⟩ ∧ p.forward = ⟨1, 0, 0⟩ := by
  constructor
  · unfold Plane.up
    rw [hh, hr]
    rw [show Vec3.cross ⟨0, 0, 3⟩ ⟨4, 0, 0⟩ = ⟨0, 12, 0⟩ by ext <;> norm_num [Vec3.cross]]
    rw [normalize_eval ⟨0, 12, 0⟩ 12 (by norm_num) (by norm_num [Vec3.dot])]
    ext <;> norm_num
  · unfold Plane.forward
    rw [hh]
    rw [normalize_eval ⟨4, 0, 0⟩ 4 (by norm_num) (by norm_num [Vec3.dot])]
    ext <;> norm_num

theorem getCenter_orthoPlane :
    getCenterFromVertices orthoPlane.mesh.vertices = some orthoPlane.center := by
  norm_num [orthoPlane, mkVertex, getCenterFromVertices, Vec3.ext_iff]

theorem getCenter_orthoPlaneShifted :
    getCenterFromVertices orthoPlaneShifted.mesh.vertices =
      some orthoPlaneShifted.center := by
  norm_num [orthoPlaneShifted, mkVertex, getCenterFromVertices, Vec3.ext_iff]

theorem translateBy_orthoPlane :
    orthoPlane.translateBy ⟨1, 2, 3⟩ = some orthoPlaneShifted := by
  rw [translateBy_of_mean orthoPlane ⟨1, 2, 3⟩ getCenter_orthoPlane]
  have hsb : orthoPlane.shiftedBody ⟨1, 2, 3⟩ =
      { orthoPlaneShifted with camera := orthoPlane.camera } := by
    norm_num [Plane.shiftedBody, orthoPlane, orthoPlaneShifted, mkVertex,
      Plane.mk.injEq, Mesh.mk.injEq, Vec3.ext_iff]
  rw [hsb]
  obtain ⟨hu, hf⟩ := up_forward_ortho { orthoPlaneShifted with camera := orthoPlane.camera }
    (by ext <;> norm_num [orthoPlaneShifted]) (by ext <;> norm_num [orthoPlaneShifted])
  unfold Plane.withCanonCamera getCameraVectors
  rw [hu, hf]
  norm_num [orthoPlaneShifted, Plane.mk.injEq, Camera.mk.injEq, Vec3.ext_iff]

theorem canon_orthoPlaneShifted :
    orthoPlaneShifted.withCanonCamera = orthoPlaneShifted := by
  apply withCanonCamera_eq_self
  obtain ⟨hu, hf⟩ := up_forward_ortho orthoPlaneShifted
    (by ext <;> norm_num [orthoPlaneShifted]) (by ext <;> norm_num [orthoPlaneShifted])
  show orthoPlaneShifted.camera = ⟨orthoPlaneShifted.center + orthoPlaneShifted.up * (2 : ℝ) +
    orthoPlaneShifted.forward * (-2 : ℝ),
    orthoPlaneShifted.center + orthoPlaneShifted.forward * (3 : ℝ), orthoPlaneShifted.up⟩
  rw [hu, hf]
  norm_num [orthoPlaneShifted, Camera.mk.injEq, Vec3.ext_iff]

theorem rotateBy_orthoPlaneShifted_zero :
    orthoPlaneShifted.rotateBy 0 = some orthoPlaneShifted := by
  rw [rotateBy_zero_of_mean orthoPlaneShifted getCenter_orthoPlaneShifted,
    canon_orthoPlaneShifted]

theorem applyOps_orthoPlane :
    applyOps orthoPlane [BodyOp.translate ⟨1, 2, 3⟩, BodyOp.rotEuler 0] =
      some orthoPlaneShifted := by
  simp only [applyOps, applyOp, translateBy_orthoPlane, rotateBy_orthoPlaneShifted_zero]

/-- Witness for (amended) C5 at concrete inputs. -/
theorem basis_orthonormal_preserved_when_initially_orthogonal_witness :
    orthoPlaneShifted.orthonormalBasis := by
  apply basis_orthonormal_preserved_when_initially_orthogonal orthoPlane orthoPlaneShifted
    [BodyOp.translate ⟨1, 2, 3⟩, BodyOp.rotEuler 0] getCenter_orthoPlane
  · intro h
    have := congrArg Vec3.x h
    norm_num [orthoPlane] at this
  · intro h
    have := congrArg Vec3.z h
    norm_num [orthoPlane] at this
  · show Vec3.dot (orthoPlane.head - orthoPlane.center)
      (orthoPlane.right_wing_tip - orthoPlane.center) = 0
    norm_num [orthoPlane, Vec3.dot]
  · intro op hop
    rcases List.mem_cons.1 hop with h | h
    · rw [h]
      simp only [OpWF]
    · rcases List.mem_cons.1 h with h2 | h2
      · rw [h2]
        simp only [OpWF]
      · exact absurd h2 (List.not_mem_nil _)
  · exact applyOps_orthoPlane


/-! ## Structure of one `update` step -/

theorem translateOrId_vel (q q1 : Plane) (cond : Prop) [Decidable cond] (mv : Vec3)
    (h : (if cond then q.translateBy mv else some q) = some q1) :
    q1.velocity = q.velocity ∧ q1.angular_velocity = q.angular_velocity := by
  split_ifs at h with hc
  · obtain ⟨a, b, -, -, -, -, -⟩ := translateBy_fields q mv q1 h
    exact ⟨a, b⟩
  · cases h
    exact ⟨rfl, rfl⟩

theorem update_dynamics (p : Plane) (dt : ℝ) (th tq w g : Vec3) (pp : Plane)
    (h : p.update dt th tq w g = some pp) :
    ∃ af atq, p.getAerodynamicForceAndTorque = some (af, atq) ∧
      pp.velocity =
        Vec3.clampLengthMax (groundCeil p (p.velocity + (af + th + w + g) * dt)) 50 ∧
      pp.angular_velocity =
        Vec3.clampLengthMax (p.angular_velocity + (atq + tq) * dt) 5 * (0.99 : ℝ) := by
  simp only [Plane.update] at h
  rcases e0 : p.getAerodynamicForceAndTorque with _ | ft
  · rw [e0] at h
    exact absurd h (by simp)
  simp only [e0] at h
  obtain ⟨af, atq⟩ := ft
  refine ⟨af, atq, rfl, ?_⟩
  obtain ⟨q1, hq1, h⟩ := Option.bind_eq_some.1 h
  obtain ⟨q2, hq2, h⟩ := Option.bind_eq_some.1 h
  obtain ⟨q3, hq3, h⟩ := Option.bind_eq_some.1 h
  obtain ⟨q4, hq4, h⟩ := Option.bind_eq_some.1 h
  obtain ⟨q6, hq6, h⟩ := Option.bind_eq_some.1 h
  obtain ⟨q7, hq7, hpp⟩ := Option.map_eq_some'.1 h
  obtain ⟨v1, a1⟩ := translateOrId_vel _ _ _ _ hq1
  obtain ⟨v2, a2⟩ := translateOrId_vel _ _ _ _ hq2
  obtain ⟨v3, a3⟩ := translateOrId_vel _ _ _ _ hq3
  obtain ⟨v4, a4⟩ := translateOrId_vel _ _ _ _ hq4
  obtain ⟨v6, a6, -, -, -, -, -⟩ := translateBy_fields _ _ _ hq6
  obtain ⟨v7, a7, -, -, -⟩ := rotateBy_fields _ _ _ hq7
  constructor
  · rw [← hpp]
    show q7.velocity = _
    rw [v7, v6]
    show Vec3.clampLengthMax q4.velocity 50 = _
    rw [v4, v3, v2, v1]
    show Vec3.clampLengthMax _ 50 = _
    unfold groundCeil
    rfl
  · rw [← hpp]
    show q7.angular_velocity * (0.99 : ℝ) = _
    rw [a7, a6]
    show Vec3.clampLengthMax q4.angular_velocity 5 * (0.99 : ℝ) = _
    rw [a4, a3, a2, a1]

/-! ## The length clamp -/

theorem Vec3.length_smul_eval (c : ℝ) (v : Vec3) : (c • v).length = |c| * v.length := by
  unfold Vec3.length
  rw [show (c • v).dot (c • v) = c ^ 2 * v.dot v by simp [Vec3.dot]; ring]
  rw [Real.sqrt_mul (sq_nonneg c), Real.sqrt_sq_eq_abs]

theorem Vec3.length_mulR_eval (v : Vec3) (c : ℝ) : (v * c).length = |c| * v.length := by
  rw [show v * c = c • v by ext <;> simp <;> ring, Vec3.length_smul_eval]

theorem clampLengthMax_length_le (v : Vec3) (m : ℝ) (hm : 0 ≤ m) :
    (v.clampLengthMax m).length ≤ m := by
  unfold Vec3.clampLengthMax
  split_ifs with hc
  · have hlsq : 0 < v.lengthSquared := lt_of_le_of_lt (mul_self_nonneg m) hc
    have hs : 0 < Real.sqrt v.lengthSquared := Real.sqrt_pos.2 hlsq
    rw [show v / Real.sqrt v.lengthSquared = (1 / Real.sqrt v.lengthSquared) • v by
      ext <;> simp <;> ring]
    rw [show m • ((1 / Real.sqrt v.lengthSquared) • v) =
      (m * (1 / Real.sqrt v.lengthSquared)) • v by ext <;> simp <;> ring]
    rw [Vec3.length_smul_eval]
    rw [show v.length = Real.sqrt v.lengthSquared from rfl]
    rw [abs_of_nonneg (by positivity)]
    rw [mul_assoc, one_div, inv_mul_cancel₀ hs.ne']
    simp
  · push_neg at hc
    calc (v.length : ℝ) = Real.sqrt v.lengthSquared := rfl
    _ ≤ Real.sqrt (m * m) := Real.sqrt_le_sqrt hc
    _ = m := Real.sqrt_mul_self hm

theorem clampLengthMax_direction (v : Vec3) (h : 50 < v.length) :
    v.clampLengthMax 50 = (50 / v.length) • v := by
  have hcond : (50 : ℝ) * 50 < v.lengthSquared := by
    have h2 : (50 : ℝ) ^ 2 < v.dot v :=
      (Real.lt_sqrt (show (0 : ℝ) ≤ 50 by norm_num)).1 h
    have h3 : v.lengthSquared = v.dot v := rfl
    nlinarith [h2]
  unfold Vec3.clampLengthMax
  rw [if_pos hcond]
  ext <;> simp [Vec3.length, Vec3.lengthSquared] <;> ring

theorem clampLengthMax_zero (m : ℝ) : Vec3.clampLengthMax 0 m = 0 := by
  unfold Vec3.clampLengthMax
  rw [if_neg]
  rw [show (0 : Vec3).lengthSquared = 0 by simp [Vec3.lengthSquared, Vec3.dot]]
  nlinarith [mul_self_nonneg m]

theorem clampLengthMax_y_zero (v : Vec3) (m : ℝ) (h : v.y = 0) :
    (v.clampLengthMax m).y = 0 := by
  unfold Vec3.clampLengthMax
  split_ifs with hc
  · simp [h]
  · exact h


/-! ## Success conditions: when each operation returns `some` -/

theorem chunks3_mem : ∀ (l : List ℕ) (t : ℕ × ℕ × ℕ), t ∈ chunks3 l →
    t.1 ∈ l ∧ t.2.1 ∈ l ∧ t.2.2 ∈ l
  | a :: b :: c :: rest, t, h => by
    rw [show chunks3 (a :: b :: c :: rest) = (a, b, c) :: chunks3 rest from rfl] at h
    rcases List.mem_cons.1 h with h | h
    · subst h
      exact ⟨by simp, by simp, by simp⟩
    · obtain ⟨h1, h2, h3⟩ := chunks3_mem rest t h
      exact ⟨by simp [h1], by simp [h2], by simp [h3]⟩
  | [], t, h => absurd h (by rw [show chunks3 [] = [] from rfl] at *; exact List.not_mem_nil t)
  | [a], t, h => absurd h (by rw [show chunks3 [a] = [] from rfl] at *; exact List.not_mem_nil t)
  | [a, b], t, h =>
    absurd h (by rw [show chunks3 [a, b] = [] from rfl] at *; exact List.not_mem_nil t)

theorem resolveTriangle_some (vs : List Vertex) (ctr : Vec3) (t : ℕ × ℕ × ℕ)
    (h1 : t.1 < vs.length) (h2 : t.2.1 < vs.length) (h3 : t.2.2 < vs.length) :
    resolveTriangle vs ctr t = some ((vs.get ⟨t.1, h1⟩).position - ctr,
      (vs.get ⟨t.2.1, h2⟩).position - ctr, (vs.get ⟨t.2.2, h3⟩).position - ctr) := by
  unfold resolveTriangle
  rw [List.get?_eq_get h1, List.get?_eq_get h2, List.get?_eq_get h3]

theorem resolveTriangles_some (vs : List Vertex) (ctr : Vec3) :
    ∀ ts : List (ℕ × ℕ × ℕ),
    (∀ t ∈ ts, t.1 < vs.length ∧ t.2.1 < vs.length ∧ t.2.2 < vs.length) →
    ∃ tris, resolveTriangles vs ctr ts = some tris
  | [], _ => ⟨[], rfl⟩
  | t :: rest, h => by
    obtain ⟨h1, h2, h3⟩ := h t (List.mem_cons_self _ _)
    obtain ⟨tris, htris⟩ :=
      resolveTriangles_some vs ctr rest (fun u hu => h u (List.mem_cons_of_mem _ hu))
    exact ⟨((vs.get ⟨t.1, h1⟩).position - ctr, (vs.get ⟨t.2.1, h2⟩).position - ctr,
        (vs.get ⟨t.2.2, h3⟩).position - ctr) :: tris,
      by simp only [resolveTriangles, resolveTriangle_some vs ctr t h1 h2 h3, htris]⟩

theorem getAero_isSome (p : Plane) (hidx : ValidIndices p.mesh) :
    ∃ ft, p.getAerodynamicForceAndTorque = some ft := by
  obtain ⟨tris, htris⟩ := resolveTriangles_some p.mesh.vertices p.center
    (chunks3 p.mesh.indices) (fun t ht => by
      obtain ⟨h1, h2, h3⟩ := chunks3_mem p.mesh.indices t ht
      exact ⟨hidx _ h1, hidx _ h2, hidx _ h3⟩)
  simp only [Plane.getAerodynamicForceAndTorque, htris]
  exact ⟨_, rfl⟩


theorem ne_nil_of_length_eq (l1 l2 : List Vertex) (h : l1.length = l2.length)
    (hne : l2 ≠ []) : l1 ≠ [] := by
  intro he
  rw [he] at h
  exact hne (List.length_eq_zero.1 h.symm)

theorem translateBy_isSome (p : Plane) (mv : Vec3) (hne : p.mesh.vertices ≠ []) :
    ∃ q, p.translateBy mv = some q ∧
      q.mesh.vertices.length = p.mesh.vertices.length ∧
      q.mesh.indices = p.mesh.indices := by
  have hne2 : (p.mesh.vertices.map fun w => { w with position := w.position + mv }) ≠ [] := by
    simpa using hne
  simp only [Plane.translateBy, getCenter_of_ne_nil _ hne2]
  exact ⟨_, rfl, by simp, rfl⟩

theorem rotateByAxisAngle_isSome (p : Plane) (axis : Vec3) (θ : ℝ)
    (hne : p.mesh.vertices ≠ []) :
    ∃ q, p.rotateByAxisAngle axis θ = some q ∧
      q.mesh.vertices.length = p.mesh.vertices.length ∧
      q.mesh.indices = p.mesh.indices := by
  have hne2 : (p.mesh.vertices.map fun w =>
      { w with position :=
          (Mat3.fromAxisAngle axis θ).mulVec3 (w.position - p.center) + p.center }) ≠ [] := by
    simpa using hne
  simp only [Plane.rotateByAxisAngle, getCenter_of_ne_nil _ hne2]
  exact ⟨_, rfl, by simp, rfl⟩

theorem rotateBy_isSome (p : Plane) (r : Vec3) (hne : p.mesh.vertices ≠ []) :
    ∃ q, p.rotateBy r = some q ∧
      q.mesh.vertices.length = p.mesh.vertices.length ∧
      q.mesh.indices = p.mesh.indices := by
  obtain ⟨q1, h1, l1, i1⟩ := rotateByAxisAngle_isSome p p.forward r.x hne
  have hne1 : q1.mesh.vertices ≠ [] := ne_nil_of_length_eq _ _ l1 hne
  obtain ⟨q2, h2, l2, i2⟩ := rotateByAxisAngle_isSome q1 q1.up r.y hne1
  have hne2 : q2.mesh.vertices ≠ [] := ne_nil_of_length_eq _ _ l2 hne1
  obtain ⟨q3, h3, l3, i3⟩ := rotateByAxisAngle_isSome q2 q2.rightAxis r.z hne2
  refine ⟨q3, ?_, by rw [l3, l2, l1], by rw [i3, i2, i1]⟩
  simp only [Plane.rotateBy, h1, h2, h3]

theorem wrapStep_isSome (q : Plane) (cond : Prop) [Decidable cond] (mv : Vec3)
    (hne : q.mesh.vertices ≠ []) :
    ∃ q1, (if cond then q.translateBy mv else some q) = some q1 ∧
      q1.mesh.vertices.length = q.mesh.vertices.length ∧
      q1.mesh.indices = q.mesh.indices := by
  split_ifs with hc
  · exact translateBy_isSome q mv hne
  · exact ⟨q, rfl, rfl, rfl⟩

theorem updateChain_isSome (q : Plane) (dt : ℝ) (hne : q.mesh.vertices ≠ []) :
    ∃ pp, ((if 500 ≤ q.center.x then q.translateBy (unitX * (-1000 : ℝ)) else some q).bind
      fun q1 =>
      (if q1.center.x ≤ -500 then q1.translateBy (unitX * (1000 : ℝ)) else some q1).bind
      fun q2 =>
      (if 500 ≤ q2.center.z then q2.translateBy (unitZ * (-1000 : ℝ)) else some q2).bind
      fun q3 =>
      (if q3.center.z ≤ -500 then q3.translateBy (unitZ * (1000 : ℝ)) else some q3).bind
      fun q4 =>
      (({ q4 with
          velocity := q4.velocity.clampLengthMax 50
          angular_velocity := q4.angular_velocity.clampLengthMax 5 } : Plane).translateBy
        (({ q4 with
          velocity := q4.velocity.clampLengthMax 50
          angular_velocity := q4.angular_velocity.clampLengthMax 5 } : Plane).velocity *
          dt)).bind
      fun q6 =>
      (q6.rotateBy (q6.angular_velocity * dt)).map fun q7 =>
      { q7 with angular_velocity := q7.angular_velocity * (0.99 : ℝ) }) = some pp := by
  obtain ⟨q1, h1, l1, i1⟩ := wrapStep_isSome q (500 ≤ q.center.x) (unitX * (-1000 : ℝ)) hne
  have hne1 : q1.mesh.vertices ≠ [] := ne_nil_of_length_eq _ _ l1 hne
  obtain ⟨q2, h2, l2, i2⟩ :=
    wrapStep_isSome q1 (q1.center.x ≤ -500) (unitX * (1000 : ℝ)) hne1
  have hne2 : q2.mesh.vertices ≠ [] := ne_nil_of_length_eq _ _ l2 hne1
  obtain ⟨q3, h3, l3, i3⟩ :=
    wrapStep_isSome q2 (500 ≤ q2.center.z) (unitZ * (-1000 : ℝ)) hne2
  have hne3 : q3.mesh.vertices ≠ [] := ne_nil_of_length_eq _ _ l3 hne2
  obtain ⟨q4, h4, l4, i4⟩ :=
    wrapStep_isSome q3 (q3.center.z ≤ -500) (unitZ * (1000 : ℝ)) hne3
  have hne4 : q4.mesh.vertices ≠ [] := ne_nil_of_length_eq _ _ l4 hne3
  obtain ⟨q6, h6, l6, i6⟩ := translateBy_isSome
    ({ q4 with
      velocity := q4.velocity.clampLengthMax 50
      angular_velocity := q4.angular_velocity.clampLengthMax 5 } : Plane)
    (({ q4 with
      velocity := q4.velocity.clampLengthMax 50
      angular_velocity := q4.angular_velocity.clampLengthMax 5 } : Plane).velocity * dt) hne4
  have hne6 : q6.mesh.vertices ≠ [] := ne_nil_of_length_eq _ _ l6 hne4
  obtain ⟨q7, h7, -, -⟩ := rotateBy_isSome q6 (q6.angular_velocity * dt) hne6
  simp only [h1, Option.some_bind', h2, h3, h4, h6, h7, Option.map_some']
  exact ⟨_, rfl⟩

theorem update_isSome (p : Plane) (dt : ℝ) (th tq w g : Vec3)
    (hne : p.mesh.vertices ≠ []) (hidx : ValidIndices p.mesh) :
    ∃ pp, p.update dt th tq w g = some pp := by
  obtain ⟨⟨af, atq⟩, hget⟩ := getAero_isSome p hidx
  simp only [Plane.update, hget]
  exact updateChain_isSome
    ({ p with
      acceleration := af + th + w + g
      angular_velocity := p.angular_velocity + (atq + tq) * dt
      velocity := groundCeil p (p.velocity + (af + th + w + g) * dt) } : Plane)
    dt hne


/-! ## Claim C8: the speed clamps -/

/-- C8: after every `update` the velocity magnitude is at most 50 and the
angular velocity magnitude is at most 5 (the `0.99` damping only shrinks
it further); and the clamp preserves direction - a vector longer than 50 is
scaled to length exactly 50 along its own direction. -/
theorem update_clamps_speed_and_angular_speed (p : Plane) (dt : ℝ) (th tq w g : Vec3)
    (pp : Plane) (v : Vec3) (h : p.update dt th tq w g = some pp)
    (hv : 50 < v.length) :
    pp.velocity.length ≤ 50 ∧ pp.angular_velocity.length ≤ 5 ∧
      v.clampLengthMax 50 = ((50 : ℝ) / v.length) • v := by
  obtain ⟨af, atq, -, hvel, hang⟩ := update_dynamics p dt th tq w g pp h
  refine ⟨?_, ?_, clampLengthMax_direction v hv⟩
  · rw [hvel]
    exact clampLengthMax_length_le _ 50 (by norm_num)
  · rw [hang, Vec3.length_mulR_eval]
    have hle := clampLengthMax_length_le (p.angular_velocity + (atq + tq) * dt) 5
      (by norm_num)
    have hnn := Vec3.length_nonneg
      (Vec3.clampLengthMax (p.angular_velocity + (atq + tq) * dt) 5)
    rw [abs_of_nonneg (by norm_num : (0 : ℝ) ≤ 0.99)]
    nlinarith

theorem validIndices_basePlane : ValidIndices basePlane.mesh := by
  intro i hi
  have hmem : i ∈ [0, 1, 2] := hi
  fin_cases hmem <;> simp [basePlane, baseVertices, mkVertex]

/-- Witness for C8 at concrete inputs. -/
theorem update_clamps_speed_and_angular_speed_witness :
    ∃ pp, basePlane.update 1 0 0 0 0 = some pp ∧
      pp.velocity.length ≤ 50 ∧ pp.angular_velocity.length ≤ 5 ∧
      Vec3.clampLengthMax ⟨0, 60, 0⟩ 50 =
        ((50 : ℝ) / (⟨0, 60, 0⟩ : Vec3).length) • (⟨0, 60, 0⟩ : Vec3) := by
  obtain ⟨pp, hpp⟩ := update_isSome basePlane 1 0 0 0 0
    (by simp [basePlane, baseVertices, mkVertex]) validIndices_basePlane
  have hv : 50 < (⟨0, 60, 0⟩ : Vec3).length := by
    have : (⟨0, 60, 0⟩ : Vec3).length = 60 := by
      unfold Vec3.length
      exact sqrt_eval (by norm_num) (by norm_num [Vec3.dot])
    rw [this]
    norm_num
  obtain ⟨c1, c2, c3⟩ :=
    update_clamps_speed_and_angular_speed basePlane 1 0 0 0 0 pp ⟨0, 60, 0⟩ hpp hv
  exact ⟨pp, hpp, c1, c2, c3⟩

/-! ## Claim C9: the floor and ceiling policies -/

/-- C9: if at the boundary check inside a step (after the acceleration has
been applied to the velocity) the center is at or below the floor (y ≤ 1)
and the vertical velocity is negative, the vertical velocity is zeroed and
is still zero at the end of the step; symmetrically at the ceiling
(y ≥ 49) for positive vertical velocity. -/
theorem floor_and_ceiling_zero_vertical_velocity (p : Plane) (dt : ℝ)
    (th tq w g af atq : Vec3) (pp : Plane)
    (hget : p.getAerodynamicForceAndTorque = some (af, atq))
    (h : p.update dt th tq w g = some pp) :
    ((p.center.y ≤ 1 ∧ (p.velocity + (af + th + w + g) * dt).y < 0) →
      pp.velocity.y = 0) ∧
    ((49 ≤ p.center.y ∧ 0 < (p.velocity + (af + th + w + g) * dt).y) →
      pp.velocity.y = 0) := by
  obtain ⟨af2, atq2, hget2, hvel, -⟩ := update_dynamics p dt th tq w g pp h
  rw [hget] at hget2
  injection hget2 with hpair
  injection hpair with haf hatq
  subst haf
  subst hatq
  constructor
  · rintro ⟨hc, hv⟩
    rw [hvel]
    apply clampLengthMax_y_zero
    unfold groundCeil
    have hfloor : (if p.center.y ≤ 1 ∧ (p.velocity + (af + th + w + g) * dt).y < 0 then
        (⟨(p.velocity + (af + th + w + g) * dt).x, 0,
          (p.velocity + (af + th + w + g) * dt).z⟩ : Vec3)
      else p.velocity + (af + th + w + g) * dt) =
        ⟨(p.velocity + (af + th + w + g) * dt).x, 0,
          (p.velocity + (af + th + w + g) * dt).z⟩ := if_pos ⟨hc, hv⟩
    rw [hfloor]
    rw [if_neg (by rintro ⟨-, habs⟩; simp at habs)]
  · rintro ⟨hc, hv⟩
    rw [hvel]
    apply clampLengthMax_y_zero
    unfold groundCeil
    have hfloor : (if p.center.y ≤ 1 ∧ (p.velocity + (af + th + w + g) * dt).y < 0 then
        (⟨(p.velocity + (af + th + w + g) * dt).x, 0,
          (p.velocity + (af + th + w + g) * dt).z⟩ : Vec3)
      else p.velocity + (af + th + w + g) * dt) =
        p.velocity + (af + th + w + g) * dt := if_neg (by rintro ⟨h1, -⟩; linarith)
    rw [hfloor]
    rw [if_pos ⟨hc, hv⟩]


theorem getAero_floorPlane : floorPlane.getAerodynamicForceAndTorque = some (0, 0) := by
  have h36 : Real.sqrt 1296 = 36 := sqrt_eval (by norm_num) (by norm_num)
  have h18 : Real.sqrt 324 = 18 := sqrt_eval (by norm_num) (by norm_num)
  norm_num [floorPlane, Plane.getAerodynamicForceAndTorque, chunks3, resolveTriangles,
    resolveTriangle, aeroAccumulate, aeroContribution, mkVertex, Vec3.normalize,
    Vec3.lengthRecip, Vec3.length, Vec3.cross, Vec3.dot, powi, List.get?, h36, h18,
    Vec3.ext_iff]

theorem validIndices_floorPlane : ValidIndices floorPlane.mesh := by
  intro i hi
  have hmem : i ∈ [0, 1, 2] := hi
  fin_cases hmem <;> simp [floorPlane, mkVertex]

/-- Witness for C9 at a concrete input: center on the floor, velocity.y = -5,
all-zero inputs - after one step the vertical velocity is exactly zero. -/
theorem floor_and_ceiling_zero_vertical_velocity_witness :
    ∃ pp, floorPlane.update 1 0 0 0 0 = some pp ∧ pp.velocity.y = 0 := by
  obtain ⟨pp, hpp⟩ := update_isSome floorPlane 1 0 0 0 0
    (by simp [floorPlane, mkVertex]) validIndices_floorPlane
  obtain ⟨hfloor, -⟩ := floor_and_ceiling_zero_vertical_velocity floorPlane 1 0 0 0 0 0 0
    pp getAero_floorPlane hpp
  refine ⟨pp, hpp, hfloor ⟨?_, ?_⟩⟩
  · norm_num [floorPlane]
  · norm_num [floorPlane]

/-! ## Claim C7: zero-input stability -/

theorem tangential_zero (n : Vec3) : (0 : Vec3) - Vec3.dot 0 n * n = 0 := by
  ext <;> simp [Vec3.dot]

theorem Vec3.length_zero : (0 : Vec3).length = 0 := by
  simp [Vec3.length, Vec3.dot]

theorem aeroContribution_zero_velocity (tri : Vec3 × Vec3 × Vec3) :
    aeroContribution 0 tri = (0, 0) := by
  obtain ⟨i, j, k⟩ := tri
  simp only [aeroContribution, tangential_zero, Vec3.length_zero]
  simp only [Prod.mk.injEq]
  constructor <;> ext <;> norm_num [powi, Vec3.cross]

theorem aeroAccumulate_zero_aux (tris : List (Vec3 × Vec3 × Vec3)) :
    ∀ acc : Vec3 × Vec3, tris.foldl (fun acc tri =>
      let ft := aeroContribution 0 tri
      (acc.1 + ft.1, acc.2 + ft.2)) acc = acc := by
  induction tris with
  | nil => intro acc; rfl
  | cons t rest ih =>
    intro acc
    rw [List.foldl_cons]
    have h : aeroContribution 0 t = (0, 0) := aeroContribution_zero_velocity t
    simp only [h, Vec3.addZero]
    exact ih acc

theorem aeroAccumulate_zero_velocity (tris : List (Vec3 × Vec3 × Vec3)) :
    aeroAccumulate 0 tris = (0, 0) :=
  aeroAccumulate_zero_aux tris (0, 0)

theorem getAero_of_valid_zero_velocity (p : Plane) (hv : p.velocity = 0)
    (hidx : ValidIndices p.mesh) :
    p.getAerodynamicForceAndTorque = some (0, 0) := by
  obtain ⟨tris, htris⟩ := resolveTriangles_some p.mesh.vertices p.center
    (chunks3 p.mesh.indices) (fun t ht => by
      obtain ⟨h1, h2, h3⟩ := chunks3_mem p.mesh.indices t ht
      exact ⟨hidx _ h1, hidx _ h2, hidx _ h3⟩)
  simp only [Plane.getAerodynamicForceAndTorque, htris, hv, aeroAccumulate_zero_velocity]
  simp [Vec3.zero_hmul]

theorem update_zero_inputs (p : Plane) (dt : ℝ)
    (hmean : getCenterFromVertices p.mesh.vertices = some p.center)
    (hv : p.velocity = 0) (hav : p.angular_velocity = 0)
    (hx : |p.center.x| < 500) (hz : |p.center.z| < 500)
    (hidx : ValidIndices p.mesh) :
    p.update dt 0 0 0 0 = some
      (Plane.withCanonCamera
        (Plane.mk p.head p.center p.right_wing_tip 0 0 0 p.mesh p.camera)) := by
  have hx1 := (abs_lt.1 hx).1
  have hx2 := (abs_lt.1 hx).2
  have hz1 := (abs_lt.1 hz).1
  have hz2 := (abs_lt.1 hz).2
  have hc1 : ¬ (500 : ℝ) ≤ p.center.x := not_le.2 hx2
  have hc2 : ¬ p.center.x ≤ (-500 : ℝ) := not_le.2 hx1
  have hc3 : ¬ (500 : ℝ) ≤ p.center.z := not_le.2 hz2
  have hc4 : ¬ p.center.z ≤ (-500 : ℝ) := not_le.2 hz1
  have haero := getAero_of_valid_zero_velocity p hv hidx
  simp only [Plane.update, haero, hv, hav, Vec3.addZero, Vec3.zero_hmul, Vec3.zero_y,
    lt_self_iff_false, and_false, if_false, hc1, hc2, hc3, hc4, Option.some_bind',
    clampLengthMax_zero]
  rw [translateBy_zero_of_mean
      (Plane.mk p.head p.center p.right_wing_tip 0 0 0 p.mesh p.camera) hmean,
    Option.some_bind']
  simp only [withCanonCamera_angular, Vec3.zero_hmul]
  rw [rotateBy_zero_of_mean
      (Plane.withCanonCamera (Plane.mk p.head p.center p.right_wing_tip 0 0 0 p.mesh p.camera))
      hmean,
    withCanonCamera_idem, Option.map_some']
  simp only [withCanonCamera_angular, Vec3.zero_hmul]
  rfl

theorem updates_zero_inputs (dts : List ℝ) : ∀ (p : Plane),
    getCenterFromVertices p.mesh.vertices = some p.center →
    p.velocity = 0 → p.angular_velocity = 0 →
    |p.center.x| < 500 → |p.center.z| < 500 →
    ValidIndices p.mesh →
    ∃ pp, p.updates dts = some pp ∧ pp.head = p.head ∧ pp.center = p.center ∧
      pp.right_wing_tip = p.right_wing_tip ∧ pp.mesh = p.mesh := by
  induction dts with
  | nil =>
    intro p _ _ _ _ _ _
    exact ⟨p, rfl, rfl, rfl, rfl, rfl⟩
  | cons dt rest ih =>
    intro p hmean hv hav hx hz hidx
    have hstep := update_zero_inputs p dt hmean hv hav hx hz hidx
    obtain ⟨pp, hpp, hh, hc, hr, hm⟩ := ih
      (Plane.withCanonCamera (Plane.mk p.head p.center p.right_wing_tip 0 0 0 p.mesh p.camera))
      hmean rfl rfl hx hz hidx
    refine ⟨pp, ?_, hh.trans rfl, hc.trans rfl, hr.trans rfl, hm.trans rfl⟩
    simp only [Plane.updates, hstep, hpp]

theorem noZeroArea_basePlane : basePlane.noZeroAreaTriangles := by
  intro t ht a b c hres
  have hch : chunks3 basePlane.mesh.indices = [((0 : ℕ), (1 : ℕ), (2 : ℕ))] := rfl
  rw [hch] at ht
  have ht' : t = ((0 : ℕ), (1 : ℕ), (2 : ℕ)) := by simpa using ht
  subst ht'
  have hres' : resolveTriangle basePlane.mesh.vertices basePlane.center
      ((0 : ℕ), (1 : ℕ), (2 : ℕ)) =
      some (⟨(4 : ℝ), 0, 0⟩, ⟨(-2 : ℝ), 0, 3⟩, ⟨(-2 : ℝ), 0, -3⟩) := by
    norm_num [resolveTriangle, basePlane, baseVertices, mkVertex, List.get?, Prod.ext_iff,
      Vec3.ext_iff]
  have h2 := hres'.symm.trans hres
  simp only [Option.some.injEq, Prod.mk.injEq] at h2
  obtain ⟨ha, hb, hc2⟩ := h2
  subst ha
  subst hb
  subst hc2
  norm_num [Vec3.cross, Vec3.ext_iff]

/-- C7: for a body whose vertex mean is its recorded center, whose mesh
indices are valid, whose triangles are non-degenerate, whose center lies
strictly inside the wrap bounds, and whose velocity and angular velocity are
zero, any sequence of `update` calls with all-zero thrust, torque, wind and
gravity leaves the center, every vertex position and the orientation
(forward, up, right) unchanged: the zero-input step is the identity on the
pose. -/
theorem zero_input_updates_fix_pose (p : Plane) (dts : List ℝ)
    (hmean : getCenterFromVertices p.mesh.vertices = some p.center)
    (hnz : p.noZeroAreaTriangles)
    (hv : p.velocity = 0) (hav : p.angular_velocity = 0)
    (hx : |p.center.x| < 500) (hz : |p.center.z| < 500)
    (hidx : ValidIndices p.mesh) :
    ∃ pp, p.updates dts = some pp ∧ pp.center = p.center ∧
      pp.mesh.vertices.map Vertex.position = p.mesh.vertices.map Vertex.position ∧
      pp.forward = p.forward ∧ pp.up = p.up ∧ pp.rightAxis = p.rightAxis := by
  obtain ⟨pp, h1, hh, hc, hr, hm⟩ := updates_zero_inputs dts p hmean hv hav hx hz hidx
  exact ⟨pp, h1, hc, by rw [hm], by simp only [Plane.forward, hh, hc],
    by simp only [Plane.up, hh, hc, hr], by simp only [Plane.rightAxis, hc, hr]⟩

/-- Witness for C7 at the base fixture over two zero-input steps. -/
theorem zero_input_updates_fix_pose_witness :
    ∃ pp, basePlane.updates [1, 1/2] = some pp ∧ pp.center = basePlane.center ∧
      pp.mesh.vertices.map Vertex.position = basePlane.mesh.vertices.map Vertex.position ∧
      pp.forward = basePlane.forward ∧ pp.up = basePlane.up ∧
      pp.rightAxis = basePlane.rightAxis :=
  zero_input_updates_fix_pose basePlane [1, 1/2] getCenter_basePlane noZeroArea_basePlane
    rfl rfl (by norm_num [basePlane]) (by norm_num [basePlane]) validIndices_basePlane

end FlightSim
